import Mathlib

/-!
Verification of the master HTTP request plane of a cluster resource manager.

Each section embeds one component of the source tree:

* `uri` — the URI value object of `3rdparty/stout/include/stout/uri.hpp`.
  The lexical split is performed by the external `uriparser` library
  (`uriParseUriA`), which follows RFC 3986; its splitting behaviour is
  modelled here directly, and the unpacking of the parsed pieces (bracket
  restoration, port numification, leading-slash handling) follows
  `uri::URI::parse` in the header.
* `mesos.master` — handlers from `src/master/http.cpp`.

All machine integers are modelled as `Nat` (the only one that matters is the
16-bit port bound, checked explicitly against 65535).
-/

namespace uri

/-- A parsed URI, mirroring `struct URI` of `stout/uri.hpp`: scheme, optional
user, optional host (with brackets preserved for IP literals), optional
16-bit port, path, optional query, optional fragment.  Text is modelled as
`List Char`. -/
structure URI where
  scheme : List Char
  user : Option (List Char)
  host : Option (List Char)
  port : Option Nat
  path : List Char
  query : Option (List Char)
  fragment : Option (List Char)
deriving DecidableEq, Repr

/-- The raw lexical split of a URI string before port numification: the
`portText` field holds the text between the port colon and the end of the
authority, exactly as `uri.portText` does in `uriParseUriA`'s output. -/
structure RawURI where
  scheme : List Char
  user : Option (List Char)
  host : Option (List Char)
  portText : Option (List Char)
  path : List Char
  query : Option (List Char)
  fragment : Option (List Char)
deriving DecidableEq, Repr

/-- Characters allowed in a scheme after the initial letter (RFC 3986 §3.1). -/
def isSchemeChar (c : Char) : Bool :=
  c.isAlpha || c.isDigit || c == '+' || c == '-' || c == '.'

/-- The authority component extends to the first `/`, `?` or `#`
(RFC 3986 §3.2). -/
def isAuthorityEnd (c : Char) : Bool :=
  c == '/' || c == '?' || c == '#'

/-- The path component extends to the first `?` or `#` (RFC 3986 §3.3). -/
def isPathEnd (c : Char) : Bool :=
  c == '?' || c == '#'

/-- Split a list into the longest prefix whose characters satisfy `keep`
and the remainder. -/
def spanP (keep : Char → Bool) (l : List Char) : List Char × List Char :=
  (l.takeWhile keep, l.dropWhile keep)

/-- Decimal value of a digit string (how `numify` reads a port). -/
def digitsToNat (l : List Char) : Nat :=
  l.foldl (fun a c => a * 10 + (c.toNat - 48)) 0

/-- Split `host [":" port]`, preserving the square brackets of an IP-literal
host, as `uriParseUriA` splits the tail of the authority.  `URI::parse` in
`stout/uri.hpp` re-attaches the brackets that the library strips
(`result.host = "[" + result.host.get() + "]"`); modelling the two steps
together, a bracketed host is returned with its brackets.  Returns `none`
when a bracket never closes or is followed by anything but `:` or the end
of the authority. -/
def parseHostPort (hp : List Char) : Option (List Char × Option (List Char)) :=
  match hp with
  | [] => some ([], none)
  | c :: t =>
    if c == '[' then
      match (spanP (fun x => !(x == ']')) t).2 with
      | [] => none
      | _ :: after =>
        match after with
        | [] => some ('[' :: ((spanP (fun x => !(x == ']')) t).1 ++ [']']), none)
        | c2 :: pt =>
          if c2 == ':' then
            some ('[' :: ((spanP (fun x => !(x == ']')) t).1 ++ [']']), some pt)
          else none
    else
      match (spanP (fun x => !(x == ':')) (c :: t)).2 with
      | [] => some ((spanP (fun x => !(x == ':')) (c :: t)).1, none)
      | _ :: pt => some ((spanP (fun x => !(x == ':')) (c :: t)).1, some pt)

/-- Split `[userinfo "@"] host [":" port]`: the `@` sign is legal in neither
userinfo nor host, so the split is at the first `@` when one is present
(RFC 3986 §3.2.1). -/
def parseAuthority (auth : List Char) :
    Option (Option (List Char) × List Char × Option (List Char)) :=
  match (spanP (fun c => !(c == '@')) auth).2 with
  | [] =>
    match parseHostPort auth with
    | none => none
    | some (h, pt) => some (none, h, pt)
  | _ :: hp =>
    match parseHostPort hp with
    | none => none
    | some (h, pt) =>
      some (some (spanP (fun c => !(c == '@')) auth).1, h, pt)

/-- Split `path ["?" query] ["#" fragment]`.  Query and fragment are
distinguished only by the earliest delimiter: a `?` that appears after a
`#` stays inside the fragment. -/
def parsePQF (s : List Char) :
    List Char × Option (List Char) × Option (List Char) :=
  match (spanP (fun c => !(isPathEnd c)) s).2 with
  | [] => ((spanP (fun c => !(isPathEnd c)) s).1, none, none)
  | c :: t =>
    if c == '?' then
      match (spanP (fun x => !(x == '#')) t).2 with
      | [] => ((spanP (fun c => !(isPathEnd c)) s).1,
               some (spanP (fun x => !(x == '#')) t).1, none)
      | _ :: f => ((spanP (fun c => !(isPathEnd c)) s).1,
               some (spanP (fun x => !(x == '#')) t).1, some f)
    else ((spanP (fun c => !(isPathEnd c)) s).1, none, some t)

/-- Split everything after `scheme ":"`.  An authority is present exactly
when the remainder starts with `//`; with an authority present, or for an
absolute path, the leading slash that `uriParseUriA` strips from the path
is restored by `URI::parse` (`result.path = "/" + result.path`), which
amounts to returning the raw path text unchanged. -/
def parseAfterScheme (scheme rest : List Char) : Option RawURI :=
  if rest.take 2 = ['/', '/'] then
    match parseAuthority (spanP (fun c => !(isAuthorityEnd c)) (rest.drop 2)).1 with
    | none => none
    | some (u, h, pt) =>
      some ⟨scheme, u, some h, pt,
            (parsePQF (spanP (fun c => !(isAuthorityEnd c)) (rest.drop 2)).2).1,
            (parsePQF (spanP (fun c => !(isAuthorityEnd c)) (rest.drop 2)).2).2.1,
            (parsePQF (spanP (fun c => !(isAuthorityEnd c)) (rest.drop 2)).2).2.2⟩
  else
    some ⟨scheme, none, none, none, (parsePQF rest).1, (parsePQF rest).2.1,
          (parsePQF rest).2.2⟩

/-- The lexical phase of `URI::parse`: `uriParseUriA` either rejects the
string or splits it into components.  A reference without a scheme leaves
`uri.scheme.first == nullptr`, which `URI::parse` rejects with
`Missing scheme in uri string`; a scheme starts with a letter.  A port
text containing a non-digit is rejected by the RFC grammar
(`port = *DIGIT`). -/
def parseRaw (s : List Char) : Option RawURI :=
  match s with
  | [] => none
  | c :: _ =>
    if !c.isAlpha then none
    else
      match (spanP isSchemeChar s).2 with
      | [] => none
      | c2 :: rest =>
        if c2 == ':' then
          match parseAfterScheme (spanP isSchemeChar s).1 rest with
          | none => none
          | some r =>
            match r.portText with
            | none => some r
            | some t => if t.all Char.isDigit then some r else none
        else none

/-- The numification phase of `URI::parse`: an empty port text yields no
port (the code only numifies when `!_port.empty()`), and `numify<uint16_t>`
rejects values beyond 65535. -/
def finalize (r : RawURI) : Option URI :=
  match r.portText with
  | none => some ⟨r.scheme, r.user, r.host, none, r.path, r.query, r.fragment⟩
  | some t =>
    if t.isEmpty then
      some ⟨r.scheme, r.user, r.host, none, r.path, r.query, r.fragment⟩
    else if digitsToNat t ≤ 65535 then
      some ⟨r.scheme, r.user, r.host, some (digitsToNat t), r.path, r.query,
            r.fragment⟩
    else none

/-- `uri::URI::parse` of `stout/uri.hpp`. -/
def parse (s : List Char) : Option URI :=
  match parseRaw s with
  | none => none
  | some r => finalize r

/-- Text of the optional port component of a raw split. -/
def ptText (pt : Option (List Char)) : List Char :=
  match pt with
  | none => []
  | some t => ':' :: t

/-- Text of the optional userinfo component, as the serializer emits it. -/
def userText (u : Option (List Char)) : List Char :=
  match u with
  | none => []
  | some us => us ++ ['@']

/-- Text of the optional query and fragment components, as the serializer
emits them. -/
def qfText (q f : Option (List Char)) : List Char :=
  (match q with
   | none => []
   | some qs => '?' :: qs) ++
  (match f with
   | none => []
   | some fs => '#' :: fs)

/-- `uri::operator<<` of `stout/uri.hpp`: `scheme ":"`, then, when a host is
present, `"//" [user "@"] host [":" port]`, then path, then `"?" query` and
`"#" fragment` when present. -/
def serialize (u : URI) : List Char :=
  u.scheme ++ [':'] ++
  (match u.host with
   | none => []
   | some h =>
     ['/', '/'] ++ userText u.user ++ h ++
       (match u.port with
        | none => []
        | some p => ':' :: Nat.toDigits 10 p)) ++
  u.path ++ qfText u.query u.fragment

/-- Serialization of a raw split, with the port rendered as its raw text. -/
def rawSerialize (r : RawURI) : List Char :=
  r.scheme ++ [':'] ++
  (match r.host with
   | none => []
   | some h => ['/', '/'] ++ userText r.user ++ h ++ ptText r.portText) ++
  r.path ++ qfText r.query r.fragment

/-- A raw split has a canonical port when its port text, if any, is
nonempty and is the shortest decimal rendering of its value. -/
def rawPortCanonical (r : RawURI) : Bool :=
  match r.portText with
  | none => true
  | some t => !t.isEmpty && t == Nat.toDigits 10 (digitsToNat t)

/-- A parse-accepted string has a canonical port when its port text, if
any, is nonempty and is the shortest decimal rendering of its value. -/
def portCanonical (s : List Char) : Bool :=
  match parseRaw s with
  | none => true
  | some r => rawPortCanonical r

theorem spanP_append (keep : Char → Bool) (l : List Char) :
    (spanP keep l).1 ++ (spanP keep l).2 = l := by
  simp [spanP, List.takeWhile_append_dropWhile]

theorem dropWhile_cons_head (keep : Char → Bool) :
    ∀ (l : List Char) (c : Char) (t : List Char),
      l.dropWhile keep = c :: t → keep c = false := by
  intro l
  induction l with
  | nil => intro c t h; simp [List.dropWhile] at h
  | cons a l ih =>
    intro c t h
    by_cases ha : keep a
    · rw [List.dropWhile_cons_of_pos ha] at h
      exact ih c t h
    · rw [List.dropWhile_cons_of_neg ha] at h
      cases h
      simpa using ha

theorem spanP_snd_head (keep : Char → Bool) (l : List Char) (c : Char)
    (t : List Char) (h : (spanP keep l).2 = c :: t) : keep c = false :=
  dropWhile_cons_head keep l c t h

theorem parsePQF_append (s : List Char) :
    (parsePQF s).1 ++ qfText (parsePQF s).2.1 (parsePQF s).2.2 = s := by
  unfold parsePQF
  have hs := spanP_append (fun c => !(isPathEnd c)) s
  cases hrest : (spanP (fun c => !(isPathEnd c)) s).2 with
  | nil =>
    rw [hrest, List.append_nil] at hs
    simpa [qfText] using hs
  | cons c t =>
    have hc : isPathEnd c = true := by
      have := spanP_snd_head (fun c => !(isPathEnd c)) s c t hrest
      simpa using this
    rw [hrest] at hs
    by_cases hq : c = '?'
    · subst hq
      have ht := spanP_append (fun x => !(x == '#')) t
      simp only [beq_self_eq_true, if_true]
      cases hrest2 : (spanP (fun x => !(x == '#')) t).2 with
      | nil =>
        rw [hrest2, List.append_nil] at ht
        rw [← ht] at hs
        simpa [qfText] using hs
      | cons c2 f =>
        have hc2 : c2 = '#' := by
          have := spanP_snd_head (fun x => !(x == '#')) t c2 f hrest2
          simpa using this
        subst hc2
        rw [hrest2] at ht
        rw [← ht] at hs
        simpa [qfText] using hs
    · have hch : c = '#' := by
        unfold isPathEnd at hc
        rcases Bool.or_eq_true_iff.mp hc with h1 | h2
        · exact absurd (by simpa using h1) hq
        · simpa using h2
      subst hch
      have hq' : (('#' : Char) == '?') = false := by decide
      simp only [hq', if_false]
      simpa [qfText] using hs

theorem parseHostPort_append (hp : List Char) (h : List Char)
    (pt : Option (List Char)) (hh : parseHostPort hp = some (h, pt)) :
    h ++ ptText pt = hp := by
  cases hp with
  | nil =>
    simp [parseHostPort] at hh
    obtain ⟨rfl, rfl⟩ := hh
    rfl
  | cons c t =>
    by_cases hbr : c = '['
    · subst hbr
      simp only [parseHostPort, beq_self_eq_true, if_true] at hh
      have ht := spanP_append (fun x => !(x == ']')) t
      cases hrest : (spanP (fun x => !(x == ']')) t).2 with
      | nil => rw [hrest] at hh; simp at hh
      | cons cb after =>
        have hcb : cb = ']' := by
          have := spanP_snd_head (fun x => !(x == ']')) t cb after hrest
          simpa using this
        subst hcb
        rw [hrest] at ht
        rw [hrest] at hh
        cases after with
        | nil =>
          simp only [Option.some.injEq, Prod.mk.injEq] at hh
          obtain ⟨rfl, rfl⟩ := hh.symm
          simpa [ptText] using congrArg (List.cons '[') ht
        | cons c2 pt2 =>
          by_cases hc2 : c2 = ':'
          · subst hc2
            simp only [beq_self_eq_true, if_true, Option.some.injEq,
              Prod.mk.injEq] at hh
            obtain ⟨rfl, rfl⟩ := hh.symm
            simpa [ptText, List.append_assoc] using congrArg (List.cons '[') ht
          · have hc2' : (c2 == ':') = false := by simpa using hc2
            simp [hc2'] at hh
    · have hbr' : (c == '[') = false := by simpa using hbr
      simp only [parseHostPort, hbr', Bool.false_eq_true, if_false] at hh
      have hcs := spanP_append (fun x => !(x == ':')) (c :: t)
      cases hrest : (spanP (fun x => !(x == ':')) (c :: t)).2 with
      | nil =>
        rw [hrest, List.append_nil] at hcs
        rw [hrest] at hh
        simp only [Option.some.injEq, Prod.mk.injEq] at hh
        obtain ⟨rfl, rfl⟩ := hh.symm
        simpa [ptText] using hcs
      | cons cc pt2 =>
        have hcc : cc = ':' := by
          have := spanP_snd_head (fun x => !(x == ':')) (c :: t) cc pt2 hrest
          simpa using this
        subst hcc
        rw [hrest] at hcs
        rw [hrest] at hh
        simp only [Option.some.injEq, Prod.mk.injEq] at hh
        obtain ⟨rfl, rfl⟩ := hh.symm
        simpa [ptText] using hcs

theorem parseAuthority_append (auth : List Char) (u : Option (List Char))
    (h : List Char) (pt : Option (List Char))
    (ha : parseAuthority auth = some (u, h, pt)) :
    userText u ++ h ++ ptText pt = auth := by
  unfold parseAuthority at ha
  have hau := spanP_append (fun c => !(c == '@')) auth
  cases hrest : (spanP (fun c => !(c == '@')) auth).2 with
  | nil =>
    rw [hrest] at ha
    cases hph : parseHostPort auth with
    | none => rw [hph] at ha; simp at ha
    | some p =>
      obtain ⟨h2, pt2⟩ := p
      simp only [hph, Option.some.injEq, Prod.mk.injEq] at ha
      obtain ⟨rfl, rfl, rfl⟩ := ha
      have := parseHostPort_append auth h2 pt2 hph
      simpa [userText] using this
  | cons ca hp =>
    have hca : ca = '@' := by
      have := spanP_snd_head (fun c => !(c == '@')) auth ca hp hrest
      simpa using this
    subst hca
    rw [hrest] at hau
    rw [hrest] at ha
    cases hph : parseHostPort hp with
    | none => simp [hph] at ha
    | some p =>
      obtain ⟨h2, pt2⟩ := p
      simp only [hph, Option.some.injEq, Prod.mk.injEq] at ha
      obtain ⟨rfl, rfl, rfl⟩ := ha
      have happ := parseHostPort_append hp h2 pt2 hph
      rw [← happ] at hau
      simpa [userText, List.append_assoc] using hau

theorem parseAfterScheme_serialize (scheme rest : List Char) (r : RawURI)
    (h : parseAfterScheme scheme rest = some r) :
    rawSerialize r = scheme ++ ':' :: rest := by
  by_cases htake : rest.take 2 = ['/', '/']
  · obtain ⟨d, hd⟩ : ∃ d, rest.drop 2 = d := ⟨_, rfl⟩
    have hrest : rest = '/' :: '/' :: d := by
      have h2 := List.take_append_drop 2 rest
      rw [htake, hd] at h2
      simpa using h2.symm
    rw [parseAfterScheme, if_pos htake, hd] at h
    obtain ⟨a, b, hab⟩ : ∃ a b, spanP (fun c => !(isAuthorityEnd c)) d = (a, b) :=
      ⟨_, _, rfl⟩
    have hsum : a ++ b = d := by
      have hs := spanP_append (fun c => !(isAuthorityEnd c)) d
      rw [hab] at hs
      simpa using hs
    simp only [hab] at h
    cases hpa : parseAuthority a with
    | none => simp [hpa] at h
    | some trip =>
      obtain ⟨u, hh, pt⟩ := trip
      simp only [hpa, Option.some.injEq] at h
      subst h
      obtain ⟨p1, p2, p3, hp⟩ : ∃ p1 p2 p3, parsePQF b = (p1, p2, p3) :=
        ⟨_, _, _, rfl⟩
      have hpqf : p1 ++ qfText p2 p3 = b := by
        have hq := parsePQF_append b
        rw [hp] at hq
        simpa using hq
      have hauth := parseAuthority_append a u hh pt hpa
      rw [hrest]
      simp only [rawSerialize, hp]
      rw [← hsum, ← hauth, ← hpqf]
      simp [List.append_assoc]
  · rw [parseAfterScheme, if_neg htake] at h
    simp only [Option.some.injEq] at h
    subst h
    obtain ⟨p1, p2, p3, hp⟩ : ∃ p1 p2 p3, parsePQF rest = (p1, p2, p3) :=
      ⟨_, _, _, rfl⟩
    have hpqf : p1 ++ qfText p2 p3 = rest := by
      have hq := parsePQF_append rest
      rw [hp] at hq
      simpa using hq
    simp only [rawSerialize, hp]
    rw [← hpqf]
    simp [List.append_assoc]

theorem parseRaw_serialize (s : List Char) (r : RawURI)
    (h : parseRaw s = some r) : rawSerialize r = s := by
  cases s with
  | nil => simp [parseRaw] at h
  | cons c s0 =>
    rw [parseRaw] at h
    by_cases hal : c.isAlpha
    · simp only [hal, Bool.not_true, Bool.false_eq_true, if_false] at h
      obtain ⟨a, b, hab⟩ : ∃ a b, spanP isSchemeChar (c :: s0) = (a, b) :=
        ⟨_, _, rfl⟩
      have hsum : a ++ b = c :: s0 := by
        have hs := spanP_append isSchemeChar (c :: s0)
        rw [hab] at hs
        simpa using hs
      simp only [hab] at h
      cases hb : b with
      | nil => rw [hb] at h; simp at h
      | cons c2 rest =>
        rw [hb] at h
        rw [hb] at hsum
        by_cases hc2 : c2 = ':'
        · subst hc2
          simp only [beq_self_eq_true, if_true] at h
          cases hps : parseAfterScheme a rest with
          | none => simp [hps] at h
          | some r2 =>
            simp only [hps] at h
            have hr : r2 = r := by
              cases hpt : r2.portText with
              | none =>
                simp only [hpt, Option.some.injEq] at h
                exact h
              | some t =>
                simp only [hpt] at h
                by_cases hdig : t.all Char.isDigit
                · simpa [hdig] using h
                · simp [hdig] at h
            subst hr
            have hser := parseAfterScheme_serialize a rest r2 hps
            rw [hser]
            exact hsum
        · have hc2' : (c2 == ':') = false := by simpa using hc2
          simp [hc2'] at h
    · have hal' : c.isAlpha = false := by simpa using hal
      simp [hal'] at h

theorem finalize_serialize (r : RawURI) (u : URI) (hf : finalize r = some u)
    (hc : rawPortCanonical r = true) : serialize u = rawSerialize r := by
  cases hpt : r.portText with
  | none =>
    simp only [finalize, hpt, Option.some.injEq] at hf
    subst hf
    simp [serialize, rawSerialize, hpt, ptText]
  | some t =>
    simp only [rawPortCanonical, hpt, Bool.and_eq_true] at hc
    obtain ⟨hne, hcan⟩ := hc
    have hne' : t.isEmpty = false := by simpa using hne
    have hcan' : t = Nat.toDigits 10 (digitsToNat t) := by
      exact eq_of_beq hcan
    simp only [finalize, hpt, hne', Bool.false_eq_true, if_false] at hf
    by_cases hle : digitsToNat t ≤ 65535
    · rw [if_pos hle] at hf
      simp only [Option.some.injEq] at hf
      subst hf
      simp only [serialize, rawSerialize, hpt, ptText]
      rw [← hcan']
    · rw [if_neg hle] at hf
      simp at hf

/-- C6 counterexample: the string `http://h:/` is accepted by `URI::parse`
(an empty port component is legal and yields no port), but serializing the
result drops the bare colon, producing `http://h/`, so
`serialize(parse(s)) = s` fails for this accepted input. -/
theorem C6_roundtrip_counterexample :
    parse ['h', 't', 't', 'p', ':', '/', '/', 'h', ':', '/'] =
      some ⟨['h', 't', 't', 'p'], none, some ['h'], none, ['/'], none, none⟩ ∧
    serialize ⟨['h', 't', 't', 'p'], none, some ['h'], none, ['/'], none, none⟩ ≠
      ['h', 't', 't', 'p', ':', '/', '/', 'h', ':', '/'] := by
  constructor
  · rfl
  · decide

/-- C6 (amended): for every string accepted by `URI::parse` whose port
component, when present, is nonempty and written canonically (no leading
zeros), serializing the parse result reproduces the input exactly,
including bracketed IPv6 host literals and optional user, port, query and
fragment components.  The restriction is forced: an empty port text
(`http://h:/`) parses but serializes without the colon, and a port with
leading zeros re-serializes in canonical decimal. -/
theorem C6_roundtrip_amended (s : List Char) (u : URI)
    (hp : parse s = some u) (hc : portCanonical s = true) :
    serialize u = s := by
  unfold parse at hp
  unfold portCanonical at hc
  cases hraw : parseRaw s with
  | none => simp [hraw] at hp
  | some r =>
    simp only [hraw] at hp hc
    have h1 := parseRaw_serialize s r hraw
    have h2 := finalize_serialize r u hp hc
    rw [h2, h1]

/-- C6 witness: the amended round-trip at the concrete accepted input
`a://b:8/c`. -/
theorem C6_roundtrip_witness :
    parse ['a', ':', '/', '/', 'b', ':', '8', '/', 'c'] =
      some ⟨['a'], none, some ['b'], some 8, ['/', 'c'], none, none⟩ ∧
    serialize ⟨['a'], none, some ['b'], some 8, ['/', 'c'], none, none⟩ =
      ['a', ':', '/', '/', 'b', ':', '8', '/', 'c'] :=
  ⟨by decide,
   C6_roundtrip_amended ['a', ':', '/', '/', 'b', ':', '8', '/', 'c']
     ⟨['a'], none, some ['b'], some 8, ['/', 'c'], none, none⟩
     (by decide) (by decide)⟩

end uri

namespace mesos

/-- HTTP responses emitted by the handlers of `src/master/http.cpp`, by
status code, with the body or location where a claim depends on it.
Messages are abridged (quotes around interpolated identifiers dropped). -/
inductive Response where
  | ok (body : String)
  | accepted
  | badRequest (msg : String)
  | forbidden (msg : String)
  | notFound (msg : String)
  | methodNotAllowed
  | notAcceptable (msg : String)
  | conflict (msg : String)
  | unsupportedMediaType (msg : String)
  | notImplemented
  | internalServerError (msg : String)
  | serviceUnavailable (msg : String)
  | temporaryRedirect (location : String)
deriving DecidableEq, Repr

/-- The three recognized media types of the v1 API (`ContentType` of
`common/http.hpp`). -/
inductive ContentType where
  | json
  | protobuf
  | recordio
deriving DecidableEq, Repr

def applicationJson : String := "application/json"

def applicationProtobuf : String := "application/x-protobuf"

def applicationRecordio : String := "application/recordio"

/-- Modelled from the spec (§4.4): `recordio` is the only streaming media
(`streamingMediaType` of `common/http.cpp`, which is not in the sample). -/
def streamingMediaType (c : ContentType) : Bool :=
  c == ContentType.recordio

/-- Request headers as an ordered name-value list. -/
abbrev Headers := List (String × String)

def hGet (hs : Headers) (k : String) : Option String :=
  match hs with
  | [] => none
  | (k2, v) :: t => if k2 == k then some v else hGet t k

def hContains (hs : Headers) (k : String) : Bool :=
  (hGet hs k).isSome

/-- Modelled from the spec and from the source comment at http.cpp:309:
`Request::acceptsMediaType` (libprocess, not in the sample) returns `true`
when the named header is absent; with the header present, acceptance is
modelled as the header naming the media type. -/
def acceptsMediaType (hs : Headers) (header media : String) : Bool :=
  match hGet hs header with
  | none => true
  | some v => v == media

/-- The negotiated media types of a v1 API request
(`RequestMediaTypes` of `common/http.hpp`). -/
structure RequestMediaTypes where
  content : ContentType
  accept : ContentType
  messageContent : Option ContentType
  messageAccept : Option ContentType
deriving DecidableEq, Repr

/-- The `Content-Type` recognition chain of `Master::Http::api`
(http.cpp:228-240). -/
def parseContentType (v : String) : Option ContentType :=
  if v == applicationJson then some ContentType.json
  else if v == applicationProtobuf then some ContentType.protobuf
  else if v == applicationRecordio then some ContentType.recordio
  else none

/-- The `Message-Content-Type` check of `Master::Http::api`
(http.cpp:242-270): required and non-streaming when the content type is
streaming, forbidden otherwise. -/
def negotiateMessageContent (headers : Headers) (content : ContentType) :
    Except Response (Option ContentType) :=
  if streamingMediaType content then
    match hGet headers "Message-Content-Type" with
    | none =>
      Except.error (Response.badRequest
        "Expecting Message-Content-Type to be set for streaming requests")
    | some v =>
      if v == applicationJson then Except.ok (some ContentType.json)
      else if v == applicationProtobuf then Except.ok (some ContentType.protobuf)
      else
        Except.error (Response.unsupportedMediaType
          "Expecting Message-Content-Type of application/json or application/x-protobuf")
  else
    if hContains headers "Message-Content-Type" then
      Except.error (Response.unsupportedMediaType
        "Expecting Message-Content-Type to be not set for non-streaming requests")
    else Except.ok none

/-- The `Accept` negotiation of `Master::Http::api` (http.cpp:293-305). -/
def negotiateAccept (headers : Headers) : Except Response ContentType :=
  if acceptsMediaType headers "Accept" applicationJson then
    Except.ok ContentType.json
  else if acceptsMediaType headers "Accept" applicationProtobuf then
    Except.ok ContentType.protobuf
  else if acceptsMediaType headers "Accept" applicationRecordio then
    Except.ok ContentType.recordio
  else
    Except.error (Response.notAcceptable
      "Expecting Accept to allow application/json or application/x-protobuf or application/recordio")

/-- The `Message-Accept` negotiation of `Master::Http::api`
(http.cpp:307-328): when the accept type is streaming, a missing
`Message-Accept` header is accepted and defaults to JSON; when the accept
type is not streaming, a present `Message-Accept` header is rejected. -/
def negotiateMessageAccept (headers : Headers) (accept : ContentType) :
    Except Response (Option ContentType) :=
  if streamingMediaType accept then
    if acceptsMediaType headers "Message-Accept" applicationJson then
      Except.ok (some ContentType.json)
    else if acceptsMediaType headers "Message-Accept" applicationProtobuf then
      Except.ok (some ContentType.protobuf)
    else
      Except.error (Response.notAcceptable
        "Expecting Message-Accept to allow application/json or application/x-protobuf")
  else
    if hContains headers "Message-Accept" then
      Except.error (Response.notAcceptable
        "Expecting Message-Accept to be not set for non-streaming responses")
    else Except.ok none

/-- The header-driven content negotiation of `Master::Http::api`
(http.cpp:222-334), after the leadership, recovery and method gates. -/
def api_negotiate (headers : Headers) : Except Response RequestMediaTypes :=
  match hGet headers "Content-Type" with
  | none => Except.error (Response.badRequest "Expecting Content-Type to be present")
  | some ct =>
    match parseContentType ct with
    | none =>
      Except.error (Response.unsupportedMediaType
        "Expecting Content-Type of application/json or application/x-protobuf or application/recordio")
    | some content =>
      match negotiateMessageContent headers content with
      | Except.error r => Except.error r
      | Except.ok mc =>
        match negotiateAccept headers with
        | Except.error r => Except.error r
        | Except.ok accept =>
          match negotiateMessageAccept headers accept with
          | Except.error r => Except.error r
          | Except.ok ma => Except.ok ⟨content, accept, mc, ma⟩

end mesos

namespace mesos

/-- C7: on /api/v1, a streaming Content-Type requires a Message-Content-Type
header naming a non-streaming media (JSON or protobuf): its absence yields
400 BadRequest and any other value yields 415 UnsupportedMediaType; a
non-streaming Content-Type with a Message-Content-Type header present
yields 415 UnsupportedMediaType. -/
theorem C7_message_content_type (headers : Headers) :
    (hGet headers "Content-Type" = some applicationRecordio →
      hGet headers "Message-Content-Type" = none →
      api_negotiate headers = Except.error (Response.badRequest
        "Expecting Message-Content-Type to be set for streaming requests")) ∧
    (∀ v, hGet headers "Content-Type" = some applicationRecordio →
      hGet headers "Message-Content-Type" = some v →
      v ≠ applicationJson → v ≠ applicationProtobuf →
      api_negotiate headers = Except.error (Response.unsupportedMediaType
        "Expecting Message-Content-Type of application/json or application/x-protobuf")) ∧
    (∀ ct v, hGet headers "Content-Type" = some ct →
      (ct = applicationJson ∨ ct = applicationProtobuf) →
      hGet headers "Message-Content-Type" = some v →
      api_negotiate headers = Except.error (Response.unsupportedMediaType
        "Expecting Message-Content-Type to be not set for non-streaming requests")) := by
  refine ⟨?_, ?_, ?_⟩
  · intro h1 h2
    simp +decide [api_negotiate, parseContentType, negotiateMessageContent,
      streamingMediaType, applicationRecordio, applicationJson,
      applicationProtobuf, h1, h2]
  · intro v h1 h2 hv1 hv2
    have hv1' : ¬(v = "application/json") := by
      simpa [applicationJson] using hv1
    have hv2' : ¬(v = "application/x-protobuf") := by
      simpa [applicationProtobuf] using hv2
    simp +decide [api_negotiate, parseContentType, negotiateMessageContent,
      streamingMediaType, applicationRecordio, applicationJson,
      applicationProtobuf, h1, h2, hv1', hv2']
  · intro ct v h1 hct h2
    rcases hct with rfl | rfl
    · simp +decide [api_negotiate, parseContentType, negotiateMessageContent,
        streamingMediaType, hContains, applicationRecordio, applicationJson,
        applicationProtobuf, h1, h2]
    · simp +decide [api_negotiate, parseContentType, negotiateMessageContent,
        streamingMediaType, hContains, applicationRecordio, applicationJson,
        applicationProtobuf, h1, h2]

/-- C7 witness: concrete header lists exercising all three rejections. -/
theorem C7_message_content_type_witness :
    api_negotiate [("Content-Type", "application/recordio")] =
      Except.error (Response.badRequest
        "Expecting Message-Content-Type to be set for streaming requests") ∧
    api_negotiate [("Content-Type", "application/recordio"),
                   ("Message-Content-Type", "application/recordio")] =
      Except.error (Response.unsupportedMediaType
        "Expecting Message-Content-Type of application/json or application/x-protobuf") ∧
    api_negotiate [("Content-Type", "application/json"),
                   ("Message-Content-Type", "application/json")] =
      Except.error (Response.unsupportedMediaType
        "Expecting Message-Content-Type to be not set for non-streaming requests") :=
  ⟨(C7_message_content_type [("Content-Type", "application/recordio")]).1
      (by decide) (by decide),
   (C7_message_content_type [("Content-Type", "application/recordio"),
      ("Message-Content-Type", "application/recordio")]).2.1
      "application/recordio" (by decide) (by decide) (by decide) (by decide),
   (C7_message_content_type [("Content-Type", "application/json"),
      ("Message-Content-Type", "application/json")]).2.2
      "application/json" "application/json" (by decide) (Or.inl rfl) (by decide)⟩

/-- C10: when the negotiated Accept is the streaming media and the
Message-Accept header is absent, the request is not rejected: the message
accept type defaults to JSON, because the header-acceptance check treats a
missing header as matching. -/
theorem C10_message_accept_default (headers : Headers) :
    (∀ mt, api_negotiate headers = Except.ok mt →
      mt.accept = ContentType.recordio →
      hGet headers "Message-Accept" = none →
      mt.messageAccept = some ContentType.json) ∧
    (hGet headers "Content-Type" = some applicationJson →
      hGet headers "Message-Content-Type" = none →
      hGet headers "Accept" = some applicationRecordio →
      hGet headers "Message-Accept" = none →
      api_negotiate headers = Except.ok
        ⟨ContentType.json, ContentType.recordio, none, some ContentType.json⟩) := by
  constructor
  · intro mt hok hacc hma
    unfold api_negotiate at hok
    cases h1 : hGet headers "Content-Type" with
    | none => simp [h1] at hok
    | some ct =>
      simp only [h1] at hok
      cases h2 : parseContentType ct with
      | none => simp [h2] at hok
      | some content =>
        simp only [h2] at hok
        cases h3 : negotiateMessageContent headers content with
        | error r => simp [h3] at hok
        | ok mc =>
          simp only [h3] at hok
          cases h4 : negotiateAccept headers with
          | error r => simp [h4] at hok
          | ok accept =>
            simp only [h4] at hok
            cases h5 : negotiateMessageAccept headers accept with
            | error r => simp [h5] at hok
            | ok ma =>
              simp only [h5, Except.ok.injEq] at hok
              subst hok
              simp only at hacc
              subst hacc
              simp only [negotiateMessageAccept, streamingMediaType,
                acceptsMediaType, hma] at h5
              simp only [beq_self_eq_true, if_true] at h5
              simpa using h5.symm
  · intro h1 h2 h3 h4
    simp +decide [api_negotiate, parseContentType, negotiateMessageContent,
      negotiateAccept, negotiateMessageAccept, acceptsMediaType, hContains,
      streamingMediaType, applicationJson, applicationProtobuf,
      applicationRecordio, h1, h2, h3, h4]

/-- C10 witness: a concrete request with streaming Accept and no
Message-Accept header negotiates successfully with message accept JSON. -/
theorem C10_message_accept_default_witness :
    api_negotiate [("Content-Type", "application/json"),
                   ("Accept", "application/recordio")] =
      Except.ok ⟨ContentType.json, ContentType.recordio, none,
                 some ContentType.json⟩ :=
  (C10_message_accept_default [("Content-Type", "application/json"),
     ("Accept", "application/recordio")]).2
    (by decide) (by decide) (by decide) (by decide)

/-- The call types of the v1 master operator API (`mesos::master::Call`),
as dispatched by the switch of `Master::Http::_api` (http.cpp:399-516). -/
inductive MasterCallType where
  | unknown
  | getHealth
  | getFlags
  | getVersion
  | getMetrics
  | getLoggingLevel
  | setLoggingLevel
  | listFiles
  | readFile
  | getState
  | getAgents
  | getFrameworks
  | getExecutors
  | getOperations
  | getTasks
  | getRoles
  | getWeights
  | updateWeights
  | getMaster
  | subscribe
  | reserveResources
  | unreserveResources
  | createVolumes
  | destroyVolumes
  | growVolume
  | shrinkVolume
  | getMaintenanceStatus
  | getMaintenanceSchedule
  | updateMaintenanceSchedule
  | startMaintenance
  | stopMaintenance
  | getQuota
  | updateQuota
  | setQuota
  | removeQuota
  | teardown
  | markAgentGone
deriving DecidableEq, Repr

/-- The streaming-media gate at the head of `Master::Http::_api`
(http.cpp:382-395): a streaming Content-Type is rejected with 415 for any
call type other than SUBSCRIBE, then a streaming Accept is rejected with
406 for any call type other than SUBSCRIBE; when neither fires, `none` is
returned and the call proceeds to the dispatch switch. -/
def _api_streaming_gate (mediaTypes : RequestMediaTypes)
    (callType : MasterCallType) : Option Response :=
  if streamingMediaType mediaTypes.content &&
      !(callType == MasterCallType.subscribe) then
    some (Response.unsupportedMediaType
      "Streaming Content-Type is not supported for this call")
  else if streamingMediaType mediaTypes.accept &&
      !(callType == MasterCallType.subscribe) then
    some (Response.notAcceptable
      "Streaming response is not supported for this call")
  else none

/-- C5: a streaming negotiated Content-Type with a non-SUBSCRIBE call type
is rejected with 415 UnsupportedMediaType; a streaming negotiated Accept
with a non-SUBSCRIBE call type (and non-streaming Content-Type, which is
checked first) is rejected with 406 NotAcceptable; SUBSCRIBE is exempt
from both rejections, and a call with neither media streaming passes. -/
theorem C5_streaming_only_for_subscribe (mt : RequestMediaTypes)
    (ct : MasterCallType) :
    (streamingMediaType mt.content = true → ct ≠ MasterCallType.subscribe →
      _api_streaming_gate mt ct = some (Response.unsupportedMediaType
        "Streaming Content-Type is not supported for this call")) ∧
    (streamingMediaType mt.content = false → streamingMediaType mt.accept = true →
      ct ≠ MasterCallType.subscribe →
      _api_streaming_gate mt ct = some (Response.notAcceptable
        "Streaming response is not supported for this call")) ∧
    (ct = MasterCallType.subscribe → _api_streaming_gate mt ct = none) ∧
    (streamingMediaType mt.content = false → streamingMediaType mt.accept = false →
      _api_streaming_gate mt ct = none) := by
  refine ⟨?_, ?_, ?_, ?_⟩
  · intro hc hs
    have hs' : (ct == MasterCallType.subscribe) = false := by simpa using hs
    simp [_api_streaming_gate, hc, hs']
  · intro hc ha hs
    have hs' : (ct == MasterCallType.subscribe) = false := by simpa using hs
    simp [_api_streaming_gate, hc, ha, hs']
  · intro hs
    subst hs
    simp [_api_streaming_gate]
  · intro hc ha
    simp [_api_streaming_gate, hc, ha]

/-- C5 witness: concrete media types and call types exercising all four
cases of the streaming gate. -/
theorem C5_streaming_only_for_subscribe_witness :
    _api_streaming_gate ⟨ContentType.recordio, ContentType.json,
        some ContentType.json, none⟩ MasterCallType.getHealth =
      some (Response.unsupportedMediaType
        "Streaming Content-Type is not supported for this call") ∧
    _api_streaming_gate ⟨ContentType.json, ContentType.recordio,
        none, some ContentType.json⟩ MasterCallType.getHealth =
      some (Response.notAcceptable
        "Streaming response is not supported for this call") ∧
    _api_streaming_gate ⟨ContentType.recordio, ContentType.recordio,
        some ContentType.json, some ContentType.json⟩ MasterCallType.subscribe =
      none ∧
    _api_streaming_gate ⟨ContentType.json, ContentType.protobuf,
        none, none⟩ MasterCallType.getHealth = none :=
  ⟨(C5_streaming_only_for_subscribe ⟨ContentType.recordio, ContentType.json,
      some ContentType.json, none⟩ MasterCallType.getHealth).1
      (by decide) (by decide),
   (C5_streaming_only_for_subscribe ⟨ContentType.json, ContentType.recordio,
      none, some ContentType.json⟩ MasterCallType.getHealth).2.1
      (by decide) (by decide) (by decide),
   (C5_streaming_only_for_subscribe ⟨ContentType.recordio, ContentType.recordio,
      some ContentType.json, some ContentType.json⟩ MasterCallType.subscribe).2.2.1
      rfl,
   (C5_streaming_only_for_subscribe ⟨ContentType.json, ContentType.protobuf,
      none, none⟩ MasterCallType.getHealth).2.2.2 (by decide) (by decide)⟩

end mesos

namespace mesos

/-- The leading master as used by `Master::Http::redirect`: the advertised
hostname (`info.has_hostname()`; resolving a bare IP through
`net::getHostname` is external to the sample) and port. -/
structure MasterInfo where
  hostname : String
  port : Nat
deriving DecidableEq, Repr

/-- `strings::startsWith` of stout, on the characters of the strings. -/
def startsWith (s pre : String) : Bool :=
  pre.data.isPrefixOf s.data

/-- `Master::Http::redirect` (http.cpp:1939-1991): 503 when no leader is
known; a bare protocol-relative redirect when the request path is exactly
`/redirect` or `/<id>/redirect`; 404 when the path extends one of those
with a `/`-separated suffix; otherwise a redirect to the leader base path
followed by the original request url. -/
def redirect (leader : Option MasterInfo) (selfId : String)
    (requestPath : String) (requestUrl : String) : Response :=
  match leader with
  | none => Response.serviceUnavailable "No leader elected"
  | some info =>
    if requestPath == "/redirect" ||
        requestPath == "/" ++ selfId ++ "/redirect" then
      Response.temporaryRedirect ("//" ++ info.hostname ++ ":" ++ toString info.port)
    else if startsWith requestPath "/redirect/" ||
        startsWith requestPath ("/" ++ selfId ++ "/redirect/") then
      Response.notFound ""
    else
      Response.temporaryRedirect
        ("//" ++ info.hostname ++ ":" ++ toString info.port ++ requestUrl)

/-- C8 counterexample: the path `/redirectx` strictly extends the prefix
`/redirect` with the suffix `x`, yet the handler answers with a 307
redirect (appending the request url), not with 404 NotFound as the claim
states: the 404 branch fires only when the suffix begins with `/`. -/
theorem C8_redirect_counterexample :
    redirect (some ⟨"h", 5050⟩) "master" "/redirectx" "/redirectx" =
      Response.temporaryRedirect "//h:5050/redirectx" := by
  decide

/-- C8 (amended): for a request handled by a non-leader: no known leader
yields 503; a path equal to `/redirect` or `/<id>/redirect` yields a 307
to the bare protocol-relative `//host:port` of the leader; a path
extending either of those prefixes with a suffix that begins with `/`
yields 404; every other path yields a 307 to `//host:port` followed by the
original request url. -/
theorem C8_redirect_amended (leader : Option MasterInfo) (selfId : String)
    (requestPath requestUrl : String) :
    (leader = none →
      redirect leader selfId requestPath requestUrl =
        Response.serviceUnavailable "No leader elected") ∧
    (∀ info, leader = some info →
      (requestPath = "/redirect" ∨ requestPath = "/" ++ selfId ++ "/redirect") →
      redirect leader selfId requestPath requestUrl =
        Response.temporaryRedirect
          ("//" ++ info.hostname ++ ":" ++ toString info.port)) ∧
    (∀ info, leader = some info →
      requestPath ≠ "/redirect" → requestPath ≠ "/" ++ selfId ++ "/redirect" →
      (startsWith requestPath "/redirect/" = true ∨
       startsWith requestPath ("/" ++ selfId ++ "/redirect/") = true) →
      redirect leader selfId requestPath requestUrl = Response.notFound "") ∧
    (∀ info, leader = some info →
      requestPath ≠ "/redirect" → requestPath ≠ "/" ++ selfId ++ "/redirect" →
      startsWith requestPath "/redirect/" = false →
      startsWith requestPath ("/" ++ selfId ++ "/redirect/") = false →
      redirect leader selfId requestPath requestUrl =
        Response.temporaryRedirect
          ("//" ++ info.hostname ++ ":" ++ toString info.port ++ requestUrl)) := by
  refine ⟨?_, ?_, ?_, ?_⟩
  · intro h
    subst h
    rfl
  · intro info h hp
    subst h
    rcases hp with rfl | rfl
    · simp [redirect]
    · simp [redirect]
  · intro info h hp1 hp2 hpre
    subst h
    have hb1 : (requestPath == "/redirect") = false := by simpa using hp1
    have hb2 : (requestPath == "/" ++ selfId ++ "/redirect") = false := by
      simpa using hp2
    rcases hpre with hpre | hpre
    · simp [redirect, hb1, hb2, hpre]
    · simp [redirect, hb1, hb2, hpre]
  · intro info h hp1 hp2 hpre1 hpre2
    subst h
    have hb1 : (requestPath == "/redirect") = false := by simpa using hp1
    have hb2 : (requestPath == "/" ++ selfId ++ "/redirect") = false := by
      simpa using hp2
    simp [redirect, hb1, hb2, hpre1, hpre2]

/-- C8 witness: the amended case analysis at concrete inputs, one per
case. -/
theorem C8_redirect_amended_witness :
    redirect none "master" "/state" "/state" =
      Response.serviceUnavailable "No leader elected" ∧
    redirect (some ⟨"h", 5050⟩) "master" "/master/redirect" "/master/redirect" =
      Response.temporaryRedirect "//h:5050" ∧
    redirect (some ⟨"h", 5050⟩) "master" "/redirect/x" "/redirect/x" =
      Response.notFound "" ∧
    redirect (some ⟨"h", 5050⟩) "master" "/api/v1" "/api/v1?a=b" =
      Response.temporaryRedirect "//h:5050/api/v1?a=b" :=
  ⟨(C8_redirect_amended none "master" "/state" "/state").1 rfl,
   (C8_redirect_amended (some ⟨"h", 5050⟩) "master" "/master/redirect"
      "/master/redirect").2.1 ⟨"h", 5050⟩ rfl (Or.inr (by decide)),
   (C8_redirect_amended (some ⟨"h", 5050⟩) "master" "/redirect/x"
      "/redirect/x").2.2.1 ⟨"h", 5050⟩ rfl (by decide) (by decide)
      (Or.inl (by decide)),
   (C8_redirect_amended (some ⟨"h", 5050⟩) "master" "/api/v1"
      "/api/v1?a=b").2.2.2 ⟨"h", 5050⟩ rfl (by decide) (by decide)
      (by decide) (by decide)⟩

end mesos

namespace mesos

/-- The call types of the v1 scheduler API (`mesos::scheduler::Call`), as
dispatched by the switch of `Master::Http::scheduler` (http.cpp:784-853). -/
inductive SchedCallType where
  | subscribe
  | teardown
  | accept
  | decline
  | acceptInverseOffers
  | declineInverseOffers
  | revive
  | suppress
  | kill
  | shutdown
  | acknowledge
  | acknowledgeOperationStatus
  | reconcile
  | reconcileOperations
  | message
  | request
  | unknown
deriving DecidableEq, Repr

/-- The parts of `FrameworkInfo` used by the scheduler handler: `id` is an
optional proto string read through its default (empty) value, `principal`
an optional proto string with presence (`has_principal`). -/
structure FrameworkInfo where
  id : String
  principal : Option String
deriving DecidableEq, Repr

/-- The parts of `scheduler::Call` read by
`validation::scheduler::call::validate` and the scheduler handler.
Optional proto submessages are `Bool` presence flags; `acknowledge` and
`acknowledgeOperationStatus` carry their uuid bytes (and, for the latter,
the `has_slave_id` / `has_resource_provider_id` flags). -/
structure SchedCall where
  initialized : Bool
  type : Option SchedCallType
  frameworkId : Option String
  subscribe : Option FrameworkInfo
  accept : Bool
  decline : Bool
  acceptInverseOffers : Bool
  declineInverseOffers : Bool
  kill : Bool
  shutdown : Bool
  acknowledge : Option (List Nat)
  acknowledgeOperationStatus : Option (List Nat × Bool × Bool)
  reconcile : Bool
  reconcileOperations : Bool
  message : Bool
  request : Bool
deriving DecidableEq, Repr

/-- `validation::scheduler::call::validate`
(src/scheduler/validation.cpp:37-201).  `id::UUID::fromBytes` (stout, not
in the sample) fails exactly when the uuid is not 16 bytes. -/
def validateSchedulerCall (call : SchedCall) (principal : Option String) :
    Option String :=
  if !call.initialized then some "Not initialized"
  else
    match call.type with
    | none => some "Expecting type to be present"
    | some t =>
      if t == SchedCallType.subscribe then
        match call.subscribe with
        | none => some "Expecting subscribe to be present"
        | some info =>
          if info.id != (call.frameworkId.getD "") then
            some "framework_id differs from subscribe.framework_info.id"
          else if principal.isSome && info.principal.isSome &&
              principal != info.principal then
            some "Authenticated principal does not match principal set in FrameworkInfo"
          else none
      else if call.frameworkId.isNone then
        some "Expecting framework_id to be present"
      else
        match t with
        | SchedCallType.subscribe => none
        | SchedCallType.teardown => none
        | SchedCallType.accept =>
          if call.accept then none else some "Expecting accept to be present"
        | SchedCallType.decline =>
          if call.decline then none else some "Expecting decline to be present"
        | SchedCallType.acceptInverseOffers =>
          if call.acceptInverseOffers then none
          else some "Expecting accept_inverse_offers to be present"
        | SchedCallType.declineInverseOffers =>
          if call.declineInverseOffers then none
          else some "Expecting decline_inverse_offers to be present"
        | SchedCallType.revive => none
        | SchedCallType.suppress => none
        | SchedCallType.kill =>
          if call.kill then none else some "Expecting kill to be present"
        | SchedCallType.shutdown =>
          if call.shutdown then none else some "Expecting shutdown to be present"
        | SchedCallType.acknowledge =>
          match call.acknowledge with
          | none => some "Expecting acknowledge to be present"
          | some uuid =>
            if uuid.length == 16 then none else some "Invalid uuid bytes"
        | SchedCallType.acknowledgeOperationStatus =>
          match call.acknowledgeOperationStatus with
          | none => some "Expecting acknowledge_operation_status to be present"
          | some (uuid, hasSlaveId, hasResourceProviderId) =>
            if !(uuid.length == 16) then some "Invalid uuid bytes"
            else if !hasSlaveId then some "Expecting agent_id to be present"
            else if !hasResourceProviderId then
              some "Expecting resource_provider_id to be present"
            else none
        | SchedCallType.reconcile =>
          if call.reconcile then none else some "Expecting reconcile to be present"
        | SchedCallType.reconcileOperations =>
          if call.reconcileOperations then none
          else some "Expecting reconcile_operations to be present"
        | SchedCallType.message =>
          if call.message then none else some "Expecting message to be present"
        | SchedCallType.request =>
          if call.request then none else some "Expecting request to be present"
        | SchedCallType.unknown => none

/-- The parts of the master's per-framework record read by the scheduler
handler: the registered `FrameworkInfo.principal` (a proto string read
through its default empty value), the `connected()` flag, and the stream
id of the HTTP connection when one exists (`framework->http`). -/
structure Framework where
  infoPrincipal : String
  connected : Bool
  httpStreamId : Option String
deriving DecidableEq, Repr

/-- `Master::getFramework`: lookup in the id-keyed framework map. -/
def lookupFramework (fs : List (String × Framework)) (id : String) :
    Option Framework :=
  match fs with
  | [] => none
  | (k, f) :: t => if k == id then some f else lookupFramework t id

/-- The parts of the HTTP request read by the scheduler handler after
decoding: the headers, and the outcome of `acceptsMediaType` for the two
non-streaming media (the Accept-header parsing of libprocess is not in the
sample; a missing Accept header accepts everything). -/
structure SchedRequest where
  headers : Headers
  acceptsJson : Bool
  acceptsProtobuf : Bool
deriving DecidableEq, Repr

/-- `Master::Http::scheduler` from the call-validation step onward
(http.cpp:669-856): validation, the Accept negotiation done only for
SUBSCRIBE and RECONCILE_OPERATIONS, the SUBSCRIBE branch with its
stream-id prohibition (a successful SUBSCRIBE returns 200 with a fresh
stream id on a response pipe, modelled as `ok`), and for every other call
the framework lookup, principal check, connectedness checks, and the
stream-id requirement, before the dispatch switch. -/
def scheduler_dispatch (frameworks : List (String × Framework))
    (req : SchedRequest) (call : SchedCall) (principal : Option String) :
    Response :=
  match validateSchedulerCall call principal with
  | some err => Response.badRequest ("Failed to validate scheduler::Call: " ++ err)
  | none =>
    if (call.type == some SchedCallType.subscribe ||
        call.type == some SchedCallType.reconcileOperations) &&
        !(req.acceptsJson || req.acceptsProtobuf) then
      Response.notAcceptable
        "Expecting Accept to allow application/x-protobuf or application/json"
    else if call.type == some SchedCallType.subscribe then
      if hContains req.headers "Mesos-Stream-Id" then
        Response.badRequest
          "Subscribe calls should not include the Mesos-Stream-Id header"
      else Response.ok "SUBSCRIBED"
    else
      match lookupFramework frameworks (call.frameworkId.getD "") with
      | none => Response.badRequest "Framework cannot be found"
      | some fw =>
        if principal.isSome && principal != some fw.infoPrincipal then
          Response.badRequest
            "Authenticated principal does not match principal set in FrameworkInfo"
        else if !fw.connected then
          Response.forbidden "Framework is not subscribed"
        else
          match fw.httpStreamId with
          | none => Response.forbidden "Framework is not connected via HTTP"
          | some sid =>
            if !(hContains req.headers "Mesos-Stream-Id") then
              Response.badRequest
                "All non-subscribe calls should include the Mesos-Stream-Id header"
            else if hGet req.headers "Mesos-Stream-Id" != some sid then
              Response.badRequest
                "The stream ID included in this request did not match the stream ID currently associated with the framework ID"
            else
              match call.type with
              | some SchedCallType.teardown => Response.accepted
              | some SchedCallType.accept => Response.accepted
              | some SchedCallType.decline => Response.accepted
              | some SchedCallType.acceptInverseOffers => Response.accepted
              | some SchedCallType.declineInverseOffers => Response.accepted
              | some SchedCallType.revive => Response.accepted
              | some SchedCallType.suppress => Response.accepted
              | some SchedCallType.kill => Response.accepted
              | some SchedCallType.shutdown => Response.accepted
              | some SchedCallType.acknowledge => Response.accepted
              | some SchedCallType.acknowledgeOperationStatus => Response.accepted
              | some SchedCallType.reconcile => Response.accepted
              | some SchedCallType.reconcileOperations =>
                Response.ok "RECONCILE_OPERATIONS"
              | some SchedCallType.message => Response.accepted
              | some SchedCallType.request => Response.accepted
              | some SchedCallType.unknown => Response.notImplemented
              | some SchedCallType.subscribe => Response.notImplemented
              | none => Response.notImplemented

end mesos

namespace mesos

/-- C4: on the scheduler endpoint, a SUBSCRIBE call (that passes
validation and whose Accept negotiation succeeds) carrying a
Mesos-Stream-Id header receives 400 BadRequest; a non-SUBSCRIBE call from
a subscribed, HTTP-connected framework (validation passed, framework
found, principal matching) receives 400 BadRequest when the
Mesos-Stream-Id header is missing and 400 BadRequest when it carries any
value other than the framework's currently registered stream id. -/
theorem C4_stream_id_rules (frameworks : List (String × Framework))
    (req : SchedRequest) (call : SchedCall) (principal : Option String) :
    (validateSchedulerCall call principal = none →
      call.type = some SchedCallType.subscribe →
      (req.acceptsJson || req.acceptsProtobuf) = true →
      hContains req.headers "Mesos-Stream-Id" = true →
      scheduler_dispatch frameworks req call principal =
        Response.badRequest
          "Subscribe calls should not include the Mesos-Stream-Id header") ∧
    (∀ fw sid,
      validateSchedulerCall call principal = none →
      call.type ≠ some SchedCallType.subscribe →
      ((call.type == some SchedCallType.reconcileOperations) &&
        !(req.acceptsJson || req.acceptsProtobuf)) = false →
      lookupFramework frameworks (call.frameworkId.getD "") = some fw →
      (principal.isSome && principal != some fw.infoPrincipal) = false →
      fw.connected = true →
      fw.httpStreamId = some sid →
      ((hContains req.headers "Mesos-Stream-Id" = false →
        scheduler_dispatch frameworks req call principal =
          Response.badRequest
            "All non-subscribe calls should include the Mesos-Stream-Id header") ∧
       (∀ v, hGet req.headers "Mesos-Stream-Id" = some v → v ≠ sid →
        scheduler_dispatch frameworks req call principal =
          Response.badRequest
            "The stream ID included in this request did not match the stream ID currently associated with the framework ID"))) := by
  constructor
  · intro hv ht hacc hsid
    have hbt : (call.type == some SchedCallType.subscribe) = true := by
      simp [ht]
    simp [scheduler_dispatch, hv, hbt, hacc, hsid]
  · intro fw sid hv ht haccok hlook hprin hconn hhttp
    have hbt : (call.type == some SchedCallType.subscribe) = false := by
      simpa using ht
    have hcond : ((call.type == some SchedCallType.subscribe ||
        call.type == some SchedCallType.reconcileOperations) &&
        !(req.acceptsJson || req.acceptsProtobuf)) = false := by
      rw [hbt, Bool.false_or]
      exact haccok
    constructor
    · intro hmiss
      simp only [scheduler_dispatch, hv]
      rw [hcond]
      simp [hbt, hlook, hprin, hconn, hhttp, hmiss]
    · intro v hgetv hne
      have hnev : (hGet req.headers "Mesos-Stream-Id" != some sid) = true := by
        simp only [hgetv, bne_iff_ne, ne_eq, Option.some.injEq]
        simpa using hne
      simp only [scheduler_dispatch, hv]
      rw [hcond]
      simp [hbt, hlook, hprin, hconn, hhttp, hContains, hgetv, hnev]
      exact fun h => absurd h hne

/-- C4 witness: a concrete SUBSCRIBE with a stream-id header, and a
concrete TEARDOWN from a subscribed HTTP framework with the header
missing and with a wrong header value. -/
theorem C4_stream_id_rules_witness :
    scheduler_dispatch []
      ⟨[("Mesos-Stream-Id", "abc")], true, true⟩
      ⟨true, some SchedCallType.subscribe, some "f", some ⟨"f", none⟩,
       false, false, false, false, false, false, none, none, false, false,
       false, false⟩ none =
      Response.badRequest
        "Subscribe calls should not include the Mesos-Stream-Id header" ∧
    scheduler_dispatch [("f", ⟨"", true, some "sid"⟩)]
      ⟨[], true, true⟩
      ⟨true, some SchedCallType.teardown, some "f", none,
       false, false, false, false, false, false, none, none, false, false,
       false, false⟩ none =
      Response.badRequest
        "All non-subscribe calls should include the Mesos-Stream-Id header" ∧
    scheduler_dispatch [("f", ⟨"", true, some "sid"⟩)]
      ⟨[("Mesos-Stream-Id", "other")], true, true⟩
      ⟨true, some SchedCallType.teardown, some "f", none,
       false, false, false, false, false, false, none, none, false, false,
       false, false⟩ none =
      Response.badRequest
        "The stream ID included in this request did not match the stream ID currently associated with the framework ID" :=
  ⟨(C4_stream_id_rules []
      ⟨[("Mesos-Stream-Id", "abc")], true, true⟩
      ⟨true, some SchedCallType.subscribe, some "f", some ⟨"f", none⟩,
       false, false, false, false, false, false, none, none, false, false,
       false, false⟩ none).1 (by decide) rfl (by decide) (by decide),
   ((C4_stream_id_rules [("f", ⟨"", true, some "sid"⟩)]
      ⟨[], true, true⟩
      ⟨true, some SchedCallType.teardown, some "f", none,
       false, false, false, false, false, false, none, none, false, false,
       false, false⟩ none).2 ⟨"", true, some "sid"⟩ "sid" (by decide)
      (by decide) (by decide) (by decide) (by decide) (by decide) rfl).1
      (by decide),
   ((C4_stream_id_rules [("f", ⟨"", true, some "sid"⟩)]
      ⟨[("Mesos-Stream-Id", "other")], true, true⟩
      ⟨true, some SchedCallType.teardown, some "f", none,
       false, false, false, false, false, false, none, none, false, false,
       false, false⟩ none).2 ⟨"", true, some "sid"⟩ "sid" (by decide)
      (by decide) (by decide) (by decide) (by decide) (by decide) rfl).2
      "other" (by decide) (by decide)⟩

end mesos

namespace mesos

/-- The agent-id sets of the master's `slaves` struct that
`Master::Http::_markAgentGone` reads and writes, plus a trace of the LOST
status updates emitted by `markGone`. -/
structure SlavesState where
  registered : List String
  recovered : List String
  unreachable : List String
  gone : List String
  markingGone : List String
  removing : List String
  markingUnreachable : List String
  lostUpdatesSent : List String
deriving DecidableEq, Repr

/-- The outcome of the synchronous part of `_markAgentGone`: either an
early reply, or the state with the agent inserted into `markingGone` and
the `MarkSlaveGone` registrar operation submitted. -/
inductive MarkGoneStep where
  | reply (r : Response)
  | submit (st : SlavesState)
deriving DecidableEq, Repr

/-- The precondition chain of `Master::Http::_markAgentGone`
(http.cpp:4216-4278): already gone yields 200; an in-flight gone, remove
or unreachable transition yields 503; an agent in none of the registered,
recovered or unreachable sets yields 404; otherwise the agent enters
`markingGone` and the registrar operation is submitted. -/
def _markAgentGone_check (st : SlavesState) (slaveId : String) : MarkGoneStep :=
  if st.gone.contains slaveId then
    MarkGoneStep.reply (Response.ok "")
  else if st.markingGone.contains slaveId then
    MarkGoneStep.reply (Response.serviceUnavailable
      ("Agent " ++ slaveId ++ " is already being transitioned to gone"))
  else if st.removing.contains slaveId then
    MarkGoneStep.reply (Response.serviceUnavailable
      ("Agent " ++ slaveId ++ " is being transitioned to removed"))
  else if st.markingUnreachable.contains slaveId then
    MarkGoneStep.reply (Response.serviceUnavailable
      ("Agent " ++ slaveId ++ " is being transitioned to unreachable"))
  else if !(st.registered.contains slaveId || st.recovered.contains slaveId ||
      st.unreachable.contains slaveId) then
    MarkGoneStep.reply (Response.notFound
      ("Agent " ++ slaveId ++ " not found"))
  else
    MarkGoneStep.submit { st with markingGone := slaveId :: st.markingGone }

/-- Modelled from the spec (§4.10): `Master::markGone`
(src/master/master.cpp is not in the sample) completes the gone transition
of a registered agent: the agent leaves `markingGone`, is recorded in the
gone set with its gone time, is removed from the master (leaving the
registered set), and LOST status updates are emitted for its tasks. -/
def markGone (st : SlavesState) (slaveId : String) : SlavesState :=
  { st with
    markingGone := st.markingGone.erase slaveId
    gone := slaveId :: st.gone
    registered := st.registered.erase slaveId
    lostUpdatesSent := slaveId :: st.lostUpdatesSent }

/-- The continuation installed on the registrar future by
`Master::Http::_markAgentGone` (http.cpp:4280-4299), for a successful
registrar apply: when the agent is not currently registered (it was
unreachable or recovered) the continuation returns without running
`markGone`. -/
def _markAgentGone_onCommit (st : SlavesState) (slaveId : String) :
    SlavesState :=
  if st.registered.contains slaveId then markGone st slaveId else st

/-- The full `_markAgentGone` call in the case where the registrar apply
succeeds (a failed apply aborts the process, http.cpp:4284-4288): the
response of the early-reply cases, or 200 OK after the commit
(http.cpp:4301-4303). -/
def markAgentGoneSuccess (st : SlavesState) (slaveId : String) :
    Response × SlavesState :=
  match _markAgentGone_check st slaveId with
  | MarkGoneStep.reply r => (r, st)
  | MarkGoneStep.submit st2 => (Response.ok "", _markAgentGone_onCommit st2 slaveId)

/-- The precondition table of §4.10 of the spec, in the order the claim
lists the checks, each with its response. -/
def markAgentGoneSpecRules (st : SlavesState) (slaveId : String) :
    List (Bool × Response) :=
  [(st.gone.contains slaveId, Response.ok ""),
   (st.markingGone.contains slaveId, Response.serviceUnavailable
      ("Agent " ++ slaveId ++ " is already being transitioned to gone")),
   (st.removing.contains slaveId, Response.serviceUnavailable
      ("Agent " ++ slaveId ++ " is being transitioned to removed")),
   (st.markingUnreachable.contains slaveId, Response.serviceUnavailable
      ("Agent " ++ slaveId ++ " is being transitioned to unreachable")),
   (!(st.registered.contains slaveId || st.recovered.contains slaveId ||
      st.unreachable.contains slaveId), Response.notFound
      ("Agent " ++ slaveId ++ " not found"))]

/-- First matching rule of an ordered guard table. -/
def firstMatch : List (Bool × Response) → Option Response
  | [] => none
  | (b, r) :: t => if b then some r else firstMatch t

/-- The claimed behaviour: the first matching precondition determines the
reply; with no precondition matching, the agent is inserted into
`markingGone` and the registrar transition is submitted. -/
def _markAgentGone_checkSpec (st : SlavesState) (slaveId : String) :
    MarkGoneStep :=
  match firstMatch (markAgentGoneSpecRules st slaveId) with
  | some r => MarkGoneStep.reply r
  | none => MarkGoneStep.submit { st with markingGone := slaveId :: st.markingGone }

/-- C2: for every authorized MARK_AGENT_GONE call, the preconditions are
checked in exactly the claimed order with the claimed distinct responses
(gone gives 200, the three in-flight transitions give 503, an unknown
agent gives 404), and only when none of them holds is the agent inserted
into `markingGone` and the registrar transition submitted. -/
theorem C2_mark_agent_gone_order (st : SlavesState) (slaveId : String) :
    _markAgentGone_check st slaveId = _markAgentGone_checkSpec st slaveId := by
  unfold _markAgentGone_check _markAgentGone_checkSpec markAgentGoneSpecRules
  simp only [firstMatch]
  split_ifs <;> rfl

/-- C9: for an agent in the recovered or unreachable set but not in the
registered set (and not in any transition set), MARK_AGENT_GONE returns
200 OK after the registrar commit, but the continuation skips `markGone`:
the agent stays out of the gone set, keeps its `markingGone` entry, no
LOST updates are emitted, and every subsequent MARK_AGENT_GONE for the
same agent returns 503 ServiceUnavailable instead of the idempotent 200. -/
theorem C9_mark_gone_unregistered (st : SlavesState) (slaveId : String)
    (hgone : st.gone.contains slaveId = false)
    (hmg : st.markingGone.contains slaveId = false)
    (hrm : st.removing.contains slaveId = false)
    (hmu : st.markingUnreachable.contains slaveId = false)
    (hreg : st.registered.contains slaveId = false)
    (hfound : (st.recovered.contains slaveId ||
               st.unreachable.contains slaveId) = true) :
    (markAgentGoneSuccess st slaveId).1 = Response.ok "" ∧
    (markAgentGoneSuccess st slaveId).2.markingGone = slaveId :: st.markingGone ∧
    (markAgentGoneSuccess st slaveId).2.gone = st.gone ∧
    (markAgentGoneSuccess st slaveId).2.lostUpdatesSent = st.lostUpdatesSent ∧
    (markAgentGoneSuccess st slaveId).2.registered = st.registered ∧
    (markAgentGoneSuccess (markAgentGoneSuccess st slaveId).2 slaveId).1 =
      Response.serviceUnavailable
        ("Agent " ++ slaveId ++ " is already being transitioned to gone") := by
  have hgone' : slaveId ∉ st.gone := by simpa using hgone
  have hmg' : slaveId ∉ st.markingGone := by simpa using hmg
  have hrm' : slaveId ∉ st.removing := by simpa using hrm
  have hmu' : slaveId ∉ st.markingUnreachable := by simpa using hmu
  have hreg' : slaveId ∉ st.registered := by simpa using hreg
  have hfound' : slaveId ∈ st.recovered ∨ slaveId ∈ st.unreachable := by
    simpa using hfound
  have hstep : _markAgentGone_check st slaveId =
      MarkGoneStep.submit { st with markingGone := slaveId :: st.markingGone } := by
    rcases hfound' with h | h <;>
      simp [_markAgentGone_check, hgone', hmg', hrm', hmu', hreg', h]
  have hfirst : markAgentGoneSuccess st slaveId =
      (Response.ok "", { st with markingGone := slaveId :: st.markingGone }) := by
    simp [markAgentGoneSuccess, hstep, _markAgentGone_onCommit, hreg']
  refine ⟨by simp [hfirst], by simp [hfirst], by simp [hfirst],
          by simp [hfirst], by simp [hfirst], ?_⟩
  rw [hfirst]
  simp [markAgentGoneSuccess, _markAgentGone_check, hgone']

/-- C9 witness: a recovered, unregistered agent at a concrete state. -/
theorem C9_mark_gone_unregistered_witness :
    (markAgentGoneSuccess ⟨[], ["a"], [], [], [], [], [], []⟩ "a").1 =
      Response.ok "" ∧
    (markAgentGoneSuccess ⟨[], ["a"], [], [], [], [], [], []⟩ "a").2.markingGone =
      ["a"] ∧
    (markAgentGoneSuccess ⟨[], ["a"], [], [], [], [], [], []⟩ "a").2.gone = [] ∧
    (markAgentGoneSuccess ⟨[], ["a"], [], [], [], [], [], []⟩ "a").2.lostUpdatesSent =
      [] ∧
    (markAgentGoneSuccess ⟨[], ["a"], [], [], [], [], [], []⟩ "a").2.registered =
      [] ∧
    (markAgentGoneSuccess
      (markAgentGoneSuccess ⟨[], ["a"], [], [], [], [], [], []⟩ "a").2 "a").1 =
      Response.serviceUnavailable
        "Agent a is already being transitioned to gone" := by
  have h := C9_mark_gone_unregistered ⟨[], ["a"], [], [], [], [], [], []⟩ "a"
    (by decide) (by decide) (by decide) (by decide) (by decide) (by decide)
  simpa using h

end mesos

namespace mesos

/-- Machine maintenance modes (`MachineInfo::Mode`). -/
inductive MachineMode where
  | up
  | draining
  | down
deriving DecidableEq, Repr

/-- One window of a maintenance schedule: machine ids and an
unavailability (its interesting content abstracted to a number). -/
structure MaintenanceWindow where
  machineIds : List String
  unavailability : Nat
deriving DecidableEq, Repr

/-- A maintenance schedule (`mesos::maintenance::Schedule`). -/
abbrev Schedule := List MaintenanceWindow

/-- The master's machine map (`master->machines`), restricted to what the
schedule update reads and writes: per machine id, the mode and the stored
unavailability. -/
abbrev Machines := List (String × MachineMode × Option Nat)

def machineMode (ms : Machines) (id : String) : Option MachineMode :=
  match ms with
  | [] => none
  | (k, m, _) :: t => if k = id then some m else machineMode t id

def machinesContains (ms : Machines) (id : String) : Bool :=
  ms.any (fun p => p.1 == id)

/-- The `unavailabilities` map built by `___updateMaintenanceSchedule`
(http.cpp:3396-3401): per machine id, the unavailability of the last
window naming it (hashmap assignment in window order). -/
def unavailabilityOf : Schedule → String → Option Nat
  | [], _ => none
  | w :: rest, id =>
    match unavailabilityOf rest id with
    | some u => some u
    | none => if w.machineIds.contains id then some w.unavailability else none

/-- The (id, unavailability) pairs of a schedule in window order. -/
def schedulePairs : Schedule → List (String × Nat)
  | [] => []
  | w :: rest =>
    w.machineIds.map (fun id => (id, w.unavailability)) ++ schedulePairs rest

/-- The machine ids named by a schedule, in window order. -/
def scheduledIds (sched : Schedule) : List String :=
  (schedulePairs sched).map Prod.fst

/-- The first loop of `___updateMaintenanceSchedule` (http.cpp:3405-3426),
over the existing machines: a machine in the new schedule keeps its mode
(an UP machine is skipped for the second loop; otherwise its
unavailability is updated); a machine omitted from the schedule is
transitioned back to UP with its unavailability removed.
`Master::updateUnavailability` (master.cpp, not in the sample) stores the
unavailability and triggers inverse offers; it does not change the mode. -/
def updateExistingMachines (ms : Machines) (sched : Schedule) : Machines :=
  ms.map (fun p =>
    match unavailabilityOf sched p.1 with
    | some u =>
      if p.2.1 = MachineMode.up then p
      else (p.1, p.2.1, some u)
    | none => (p.1, MachineMode.up, none))

/-- Hashmap assignment `machines[id] = (DRAINING, u)`. -/
def setMachineDraining (ms : Machines) (id : String) (u : Option Nat) :
    Machines :=
  if machinesContains ms id then
    ms.map (fun p => if p.1 = id then (id, MachineMode.draining, u) else p)
  else ms ++ [(id, MachineMode.draining, u)]

/-- One step of the second loop of `___updateMaintenanceSchedule`
(http.cpp:3430-3445): a machine already present with a mode other than UP
is skipped; otherwise it is saved in DRAINING mode with the window's
unavailability. -/
def addScheduledMachine (ms : Machines) (id : String) (u : Nat) : Machines :=
  if machinesContains ms id = true ∧ ¬(machineMode ms id = some MachineMode.up)
  then ms
  else setMachineDraining ms id (some u)

/-- The second loop of `___updateMaintenanceSchedule` (http.cpp:3430-3445),
over the windows of the new schedule. -/
def addScheduledMachines (ms : Machines) (sched : Schedule) : Machines :=
  sched.foldl (fun acc w =>
    w.machineIds.foldl (fun acc2 id => addScheduledMachine acc2 id w.unavailability)
      acc) ms

/-- The machine-state effect of `___updateMaintenanceSchedule`
(http.cpp:3377-3452): the first loop over existing machines, then the
second loop over scheduled machines. -/
def applyScheduleUpdate (ms : Machines) (sched : Schedule) : Machines :=
  addScheduledMachines (updateExistingMachines ms sched) sched

/-- Modelled from the spec: `maintenance::validation::schedule`
(src/master/maintenance.cpp is not in the sample).  Per §3 and §4.9 of the
spec, a schedule may only reference machines in UP or DRAINING mode, and
UPDATE_SCHEDULE rejects schedules whose machines would have to transition
between non-adjacent modes: naming a DOWN machine (DOWN to DRAINING) or
omitting a DOWN machine (DOWN to UP, since omitted machines are
transitioned to UP) is an error. -/
def validateMaintenanceSchedule (ms : Machines) (sched : Schedule) : Bool :=
  ((scheduledIds sched).all
    (fun id => !(machineMode ms id == some MachineMode.down))) &&
  (ms.all (fun p =>
    !(p.2.1 == MachineMode.down) || (scheduledIds sched).contains p.1))

/-- The full `UPDATE_MAINTENANCE_SCHEDULE` pipeline of
`Master::Http::_updateMaintenanceSchedule` through
`___updateMaintenanceSchedule` (http.cpp:3323-3452): validation (rejected
schedules produce 400 BadRequest before any state change), per-machine
authorization (`approved` models the `ObjectApprovers`), then the
registrar apply (assumed successful: failure aborts the process) and the
local update, answering 200 OK. -/
def updateMaintenanceSchedule (ms : Machines) (sched : Schedule)
    (approved : String → Bool) : Response × Machines :=
  if !(validateMaintenanceSchedule ms sched) then
    (Response.badRequest "Invalid schedule", ms)
  else if !((scheduledIds sched).all approved) then
    (Response.forbidden "", ms)
  else
    (Response.ok "", applyScheduleUpdate ms sched)

end mesos

namespace mesos

theorem machineMode_cons (k : String) (m : MachineMode) (u : Option Nat)
    (t : Machines) (id : String) :
    machineMode ((k, m, u) :: t) id =
      if k = id then some m else machineMode t id := rfl

theorem machinesContains_isSome (ms : Machines) (id : String) :
    machinesContains ms id = (machineMode ms id).isSome := by
  induction ms with
  | nil => rfl
  | cons p t ih =>
    obtain ⟨k, m, u⟩ := p
    by_cases hk : k = id
    · subst hk
      simp [machinesContains, machineMode, List.any_cons]
    · have hb : (k == id) = false := by simpa using hk
      simp only [machinesContains] at ih ⊢
      rw [List.any_cons, hb, Bool.false_or, machineMode_cons, if_neg hk]
      exact ih

theorem scheduledIds_cons (w : MaintenanceWindow) (rest : Schedule) :
    scheduledIds (w :: rest) = w.machineIds ++ scheduledIds rest := by
  simp only [scheduledIds, schedulePairs, List.map_append, List.map_map]
  congr 1
  induction w.machineIds with
  | nil => rfl
  | cons x xs ih => simp [ih]

theorem unavailabilityOf_isSome (sched : Schedule) (id : String) :
    (unavailabilityOf sched id).isSome = true ↔ id ∈ scheduledIds sched := by
  induction sched with
  | nil => simp [unavailabilityOf, scheduledIds, schedulePairs]
  | cons w rest ih =>
    rw [scheduledIds_cons]
    simp only [unavailabilityOf, List.mem_append]
    cases hr : unavailabilityOf rest id with
    | some u =>
      have hmem : id ∈ scheduledIds rest := ih.mp (by simp [hr])
      simp [hmem]
    | none =>
      have hnot : ¬ id ∈ scheduledIds rest := by
        intro h
        have := ih.mpr h
        simp [hr] at this
      by_cases hw : w.machineIds.contains id
      · have hmem : id ∈ w.machineIds := by simpa using hw
        simp [hw, hmem]
      · have hmem : ¬ id ∈ w.machineIds := by simpa using hw
        simp [hw, hmem, hnot]

theorem machineMode_updateExisting (ms : Machines) (sched : Schedule)
    (id : String) :
    machineMode (updateExistingMachines ms sched) id =
      match machineMode ms id with
      | none => none
      | some m =>
        if (unavailabilityOf sched id).isSome then some m
        else some MachineMode.up := by
  induction ms with
  | nil => rfl
  | cons p t ih =>
    obtain ⟨k, m, u⟩ := p
    simp only [updateExistingMachines, List.map_cons] at ih ⊢
    cases hu : unavailabilityOf sched k with
    | none =>
      dsimp only
      rw [machineMode_cons, machineMode_cons]
      by_cases hk : k = id
      · subst hk
        rw [if_pos rfl, if_pos rfl]
        simp [hu]
      · rw [if_neg hk, if_neg hk]
        exact ih
    | some u2 =>
      dsimp only
      by_cases hm : m = MachineMode.up
      · rw [if_pos hm, machineMode_cons, machineMode_cons]
        by_cases hk : k = id
        · subst hk
          rw [if_pos rfl, if_pos rfl]
          simp [hu]
        · rw [if_neg hk, if_neg hk]
          exact ih
      · rw [if_neg hm, machineMode_cons, machineMode_cons]
        by_cases hk : k = id
        · subst hk
          rw [if_pos rfl, if_pos rfl]
          simp [hu]
        · rw [if_neg hk, if_neg hk]
          exact ih

theorem machineMode_map_set_other (ms : Machines) (id0 id : String)
    (u : Option Nat) (hne : id ≠ id0) :
    machineMode (ms.map (fun p =>
        if p.1 = id0 then (id0, MachineMode.draining, u) else p)) id =
      machineMode ms id := by
  induction ms with
  | nil => rfl
  | cons p t ih =>
    obtain ⟨k, m, u2⟩ := p
    rw [List.map_cons]
    dsimp only
    by_cases hp : k = id0
    · subst hp
      have h1 : ¬ k = id := fun h => absurd h.symm hne
      rw [if_pos rfl, machineMode_cons, machineMode_cons, if_neg h1, if_neg h1]
      exact ih
    · rw [if_neg hp, machineMode_cons, machineMode_cons]
      by_cases hk : k = id
      · rw [if_pos hk, if_pos hk]
      · rw [if_neg hk, if_neg hk]
        exact ih

theorem machineMode_map_set_self (ms : Machines) (id0 : String)
    (u : Option Nat) (hc : machinesContains ms id0 = true) :
    machineMode (ms.map (fun p =>
        if p.1 = id0 then (id0, MachineMode.draining, u) else p)) id0 =
      some MachineMode.draining := by
  induction ms with
  | nil => simp [machinesContains] at hc
  | cons p t ih =>
    obtain ⟨k, m, u2⟩ := p
    rw [List.map_cons]
    dsimp only
    by_cases hp : k = id0
    · subst hp
      rw [if_pos rfl, machineMode_cons, if_pos rfl]
    · have hb : (k == id0) = false := by simpa using hp
      have hc2 : machinesContains t id0 = true := by
        simp only [machinesContains, List.any_cons, hb, Bool.false_or] at hc
        exact hc
      rw [if_neg hp, machineMode_cons, if_neg hp]
      exact ih hc2

theorem machineMode_append (l1 l2 : Machines) (id : String) :
    machineMode (l1 ++ l2) id =
      match machineMode l1 id with
      | some m => some m
      | none => machineMode l2 id := by
  induction l1 with
  | nil => simp [machineMode]
  | cons p t ih =>
    obtain ⟨k, m, u⟩ := p
    rw [List.cons_append, machineMode_cons, machineMode_cons]
    by_cases hk : k = id
    · rw [if_pos hk, if_pos hk]
    · rw [if_neg hk, if_neg hk]
      exact ih

theorem machineMode_setDraining_self (ms : Machines) (id0 : String)
    (u : Option Nat) :
    machineMode (setMachineDraining ms id0 u) id0 =
      some MachineMode.draining := by
  unfold setMachineDraining
  by_cases hc : machinesContains ms id0 = true
  · simp only [hc, if_true]
    exact machineMode_map_set_self ms id0 u hc
  · have hc2 : machinesContains ms id0 = false := by simpa using hc
    have hnone : machineMode ms id0 = none := by
      have hiso := machinesContains_isSome ms id0
      rw [hc2] at hiso
      cases h : machineMode ms id0 with
      | none => rfl
      | some m => rw [h] at hiso; simp at hiso
    simp only [hc2, Bool.false_eq_true, if_false]
    rw [machineMode_append, hnone]
    simp [machineMode]

theorem machineMode_setDraining_other (ms : Machines) (id0 id : String)
    (u : Option Nat) (hne : id ≠ id0) :
    machineMode (setMachineDraining ms id0 u) id = machineMode ms id := by
  unfold setMachineDraining
  by_cases hc : machinesContains ms id0 = true
  · simp only [hc, if_true]
    exact machineMode_map_set_other ms id0 id u hne
  · have hc2 : machinesContains ms id0 = false := by simpa using hc
    simp only [hc2, Bool.false_eq_true, if_false]
    rw [machineMode_append]
    cases h : machineMode ms id with
    | some m => rfl
    | none =>
      have h0 : ¬ id0 = id := fun h2 => absurd h2.symm hne
      simp [machineMode, h0]

theorem machineMode_addScheduled (ms : Machines) (id0 id : String) (u : Nat) :
    machineMode (addScheduledMachine ms id0 u) id =
      if machinesContains ms id0 = true ∧
          ¬(machineMode ms id0 = some MachineMode.up) then
        machineMode ms id
      else if id = id0 then some MachineMode.draining
      else machineMode ms id := by
  unfold addScheduledMachine
  by_cases hskip : machinesContains ms id0 = true ∧
      ¬(machineMode ms id0 = some MachineMode.up)
  · rw [if_pos hskip, if_pos hskip]
  · rw [if_neg hskip, if_neg hskip]
    by_cases hid : id = id0
    · subst hid
      rw [if_pos rfl]
      exact machineMode_setDraining_self ms id (some u)
    · rw [if_neg hid]
      exact machineMode_setDraining_other ms id0 id (some u) hid

end mesos

namespace mesos

/-- Every machine of the map is in UP or DRAINING mode. -/
def modesOk (ms : Machines) : Prop :=
  ∀ id m, machineMode ms id = some m →
    m = MachineMode.up ∨ m = MachineMode.draining

theorem modesOk_addScheduled (ms : Machines) (id0 : String) (u : Nat)
    (h : modesOk ms) : modesOk (addScheduledMachine ms id0 u) := by
  intro id m hm
  rw [machineMode_addScheduled] at hm
  by_cases hskip : machinesContains ms id0 = true ∧
      ¬(machineMode ms id0 = some MachineMode.up)
  · rw [if_pos hskip] at hm
    exact h id m hm
  · rw [if_neg hskip] at hm
    by_cases hid : id = id0
    · rw [if_pos hid] at hm
      cases Option.some.inj hm
      exact Or.inr rfl
    · rw [if_neg hid] at hm
      exact h id m hm

/-- The second loop, flattened over the (id, unavailability) pairs of the
schedule. -/
def loop2 (pairs : List (String × Nat)) (ms : Machines) : Machines :=
  pairs.foldl (fun acc p => addScheduledMachine acc p.1 p.2) ms

theorem addScheduledMachines_eq_loop2 (sched : Schedule) (ms : Machines) :
    addScheduledMachines ms sched = loop2 (schedulePairs sched) ms := by
  induction sched generalizing ms with
  | nil => rfl
  | cons w rest ih =>
    simp only [addScheduledMachines, List.foldl_cons, schedulePairs, loop2,
      List.foldl_append, List.foldl_map] at ih ⊢
    exact ih _

theorem loop2_keep_draining (pairs : List (String × Nat)) (ms : Machines)
    (id : String) (h : machineMode ms id = some MachineMode.draining) :
    machineMode (loop2 pairs ms) id = some MachineMode.draining := by
  induction pairs generalizing ms with
  | nil => exact h
  | cons p rest ih =>
    obtain ⟨id0, u⟩ := p
    simp only [loop2, List.foldl_cons] at ih ⊢
    apply ih
    rw [machineMode_addScheduled]
    by_cases hskip : machinesContains ms id0 = true ∧
        ¬(machineMode ms id0 = some MachineMode.up)
    · rw [if_pos hskip]
      exact h
    · rw [if_neg hskip]
      by_cases hid : id = id0
      · rw [if_pos hid]
      · rw [if_neg hid]
        exact h

theorem loop2_modesOk (pairs : List (String × Nat)) (ms : Machines)
    (h : modesOk ms) : modesOk (loop2 pairs ms) := by
  induction pairs generalizing ms with
  | nil => exact h
  | cons p rest ih =>
    obtain ⟨id0, u⟩ := p
    simp only [loop2, List.foldl_cons] at ih ⊢
    exact ih _ (modesOk_addScheduled ms id0 u h)

theorem loop2_unscheduled (pairs : List (String × Nat)) (ms : Machines)
    (id : String) (h : ¬ id ∈ pairs.map Prod.fst) :
    machineMode (loop2 pairs ms) id = machineMode ms id := by
  induction pairs generalizing ms with
  | nil => rfl
  | cons p rest ih =>
    obtain ⟨id0, u⟩ := p
    have hne : id ≠ id0 := by
      intro he
      exact h (by simp [he])
    have hrest : ¬ id ∈ rest.map Prod.fst := by
      intro he
      exact h (by simp [he])
    simp only [loop2, List.foldl_cons] at ih ⊢
    rw [ih _ hrest, machineMode_addScheduled]
    by_cases hskip : machinesContains ms id0 = true ∧
        ¬(machineMode ms id0 = some MachineMode.up)
    · rw [if_pos hskip]
    · rw [if_neg hskip, if_neg hne]

theorem loop2_scheduled_draining (pairs : List (String × Nat)) (ms : Machines)
    (id : String) (hin : id ∈ pairs.map Prod.fst) (h : modesOk ms) :
    machineMode (loop2 pairs ms) id = some MachineMode.draining := by
  induction pairs generalizing ms with
  | nil => simp at hin
  | cons p rest ih =>
    obtain ⟨id0, u⟩ := p
    simp only [loop2, List.foldl_cons] at ih ⊢
    by_cases hid : id = id0
    · subst hid
      have hstep : machineMode (addScheduledMachine ms id u) id =
          some MachineMode.draining := by
        rw [machineMode_addScheduled]
        by_cases hskip : machinesContains ms id = true ∧
            ¬(machineMode ms id = some MachineMode.up)
        · rw [if_pos hskip]
          obtain ⟨hc, hnotup⟩ := hskip
          have hiso := machinesContains_isSome ms id
          rw [hc] at hiso
          cases hm : machineMode ms id with
          | none => rw [hm] at hiso; simp at hiso
          | some m0 =>
            rcases h id m0 hm with h1 | h1
            · subst h1
              exact absurd hm hnotup
            · subst h1
              rfl
        · rw [if_neg hskip, if_pos rfl]
      exact loop2_keep_draining rest _ id hstep
    · have hin2 : id ∈ rest.map Prod.fst := by
        simpa [hid] using hin
      exact ih _ hin2 (modesOk_addScheduled ms id0 u h)

theorem modesOk_updateExisting (ms : Machines) (sched : Schedule)
    (hv : validateMaintenanceSchedule ms sched = true) :
    modesOk (updateExistingMachines ms sched) := by
  intro id m h
  rw [machineMode_updateExisting] at h
  cases hms : machineMode ms id with
  | none => rw [hms] at h; simp at h
  | some m0 =>
    simp only [hms] at h
    by_cases hsch : (unavailabilityOf sched id).isSome = true
    · rw [if_pos hsch] at h
      have hm0 : m0 = m := Option.some.inj h
      rw [← hm0]
      have hmem : id ∈ scheduledIds sched :=
        (unavailabilityOf_isSome sched id).mp hsch
      have hv2 := hv
      unfold validateMaintenanceSchedule at hv2
      rw [Bool.and_eq_true] at hv2
      have hid := List.all_eq_true.mp hv2.1 id hmem
      rw [hms] at hid
      cases m0 with
      | up => exact Or.inl rfl
      | draining => exact Or.inr rfl
      | down => simp at hid
    · rw [if_neg hsch] at h
      have hup : MachineMode.up = m := Option.some.inj h
      exact Or.inl hup.symm

/-- C3: an accepted (200 OK) UPDATE_MAINTENANCE_SCHEDULE leaves every
machine in UP or DRAINING mode: machines named in the schedule end in
DRAINING, machines omitted from it end in UP, and a schedule requiring a
non-adjacent transition (such as DOWN to DRAINING) is rejected with 400
BadRequest before any state change. -/
theorem C3_update_schedule_modes (ms : Machines) (sched : Schedule)
    (approved : String → Bool) :
    ((updateMaintenanceSchedule ms sched approved).1 = Response.ok "" →
      (∀ id m,
        machineMode (updateMaintenanceSchedule ms sched approved).2 id =
          some m → m = MachineMode.up ∨ m = MachineMode.draining) ∧
      (∀ id, id ∈ scheduledIds sched →
        machineMode (updateMaintenanceSchedule ms sched approved).2 id =
          some MachineMode.draining) ∧
      (∀ id m, ¬ id ∈ scheduledIds sched →
        machineMode (updateMaintenanceSchedule ms sched approved).2 id =
          some m → m = MachineMode.up)) ∧
    (validateMaintenanceSchedule ms sched = false →
      updateMaintenanceSchedule ms sched approved =
        (Response.badRequest "Invalid schedule", ms)) := by
  constructor
  · intro hok
    have hv : validateMaintenanceSchedule ms sched = true := by
      by_contra hnv
      have h2 : validateMaintenanceSchedule ms sched = false := by
        simpa using hnv
      simp [updateMaintenanceSchedule, h2] at hok
    have ha : (scheduledIds sched).all approved = true := by
      by_contra hna
      have h2 : (scheduledIds sched).all approved = false := by simpa using hna
      simp [updateMaintenanceSchedule, hv, h2] at hok
    have hres : (updateMaintenanceSchedule ms sched approved).2 =
        applyScheduleUpdate ms sched := by
      simp [updateMaintenanceSchedule, hv, ha]
    rw [hres]
    have hinv := modesOk_updateExisting ms sched hv
    have hflat : applyScheduleUpdate ms sched =
        loop2 (schedulePairs sched) (updateExistingMachines ms sched) := by
      unfold applyScheduleUpdate
      exact addScheduledMachines_eq_loop2 sched _
    refine ⟨?_, ?_, ?_⟩
    · intro id m hm
      rw [hflat] at hm
      exact loop2_modesOk _ _ hinv id m hm
    · intro id hmem
      rw [hflat]
      exact loop2_scheduled_draining _ _ id
        (by simpa [scheduledIds] using hmem) hinv
    · intro id m hmem hm
      rw [hflat] at hm
      rw [loop2_unscheduled _ _ id (by simpa [scheduledIds] using hmem)] at hm
      rw [machineMode_updateExisting] at hm
      cases hms : machineMode ms id with
      | none => rw [hms] at hm; simp at hm
      | some m0 =>
        simp only [hms] at hm
        have hsch : ¬ (unavailabilityOf sched id).isSome = true := by
          intro h2
          exact hmem ((unavailabilityOf_isSome sched id).mp h2)
        rw [if_neg hsch] at hm
        exact (Option.some.inj hm).symm
  · intro hnv
    simp [updateMaintenanceSchedule, hnv]

/-- C3 witness: a concrete accepted update (machine m1 scheduled from UP,
machine m2 dropped from DRAINING) and a concrete rejected one (machine m3
is DOWN and omitted, a non-adjacent DOWN to UP transition). -/
theorem C3_update_schedule_modes_witness :
    machineMode (updateMaintenanceSchedule
      [("m1", MachineMode.up, none), ("m2", MachineMode.draining, some 1)]
      [⟨["m1"], 5⟩] (fun _ => true)).2 "m1" = some MachineMode.draining ∧
    (MachineMode.draining = MachineMode.up ∨
     MachineMode.draining = MachineMode.draining) ∧
    (MachineMode.up = MachineMode.up) ∧
    updateMaintenanceSchedule [("m3", MachineMode.down, none)]
      [⟨["m1"], 5⟩] (fun _ => true) =
      (Response.badRequest "Invalid schedule",
       [("m3", MachineMode.down, none)]) :=
  ⟨((C3_update_schedule_modes
      [("m1", MachineMode.up, none), ("m2", MachineMode.draining, some 1)]
      [⟨["m1"], 5⟩] (fun _ => true)).1 (by decide)).2.1 "m1" (by decide),
   ((C3_update_schedule_modes
      [("m1", MachineMode.up, none), ("m2", MachineMode.draining, some 1)]
      [⟨["m1"], 5⟩] (fun _ => true)).1 (by decide)).1 "m1"
      MachineMode.draining (by decide),
   ((C3_update_schedule_modes
      [("m1", MachineMode.up, none), ("m2", MachineMode.draining, some 1)]
      [⟨["m1"], 5⟩] (fun _ => true)).1 (by decide)).2.2 "m2"
      MachineMode.up (by decide) (by decide),
   (C3_update_schedule_modes [("m3", MachineMode.down, none)]
      [⟨["m1"], 5⟩] (fun _ => true)).2 (by decide)⟩

end mesos

namespace mesos

/-- The operations on `Resources` used by the speculative rescind loop of
`Master::Http::_operation`.  The `Resources` algebra itself lives in
`src/common/resources.cpp`, which is not in the sample; the loop is proved
for every implementation of these operations. -/
structure ResourcesOps (R : Type) (Op : Type) where
  add : R → R → R
  sub : R → R → R
  beq : R → R → Bool
  unallocate : R → R
  applySucceeds : R → Op → Bool

/-- An outstanding offer as read by the rescind loop. -/
structure Offer (R : Type) where
  id : String
  frameworkId : String
  slaveId : String
  resources : R
deriving DecidableEq, Repr

/-- A recorded `allocator->recoverResources` call; the explicitly passed
`Filters()` carries the default `refuse_seconds` of 5 seconds
(http.cpp:4143-4154). -/
structure RecoverCall (R : Type) where
  frameworkId : String
  slaveId : String
  resources : R
  refuseSeconds : Nat
deriving DecidableEq, Repr

/-- The observable outcome of the rescind loop: the final `totalRecovered`
and `required`, the allocator recover calls made, and the ids of the
offers removed from master state (rescinded), in order. -/
structure RescindTrace (R : Type) where
  totalRecovered : R
  required : R
  recoverCalls : List (RecoverCall R)
  removedOffers : List String
deriving DecidableEq, Repr

/-- The speculative offer-rescind loop of `Master::Http::_operation`
(http.cpp:4121-4163) over the snapshot `utils::copy(slave->offers)`: an
offer is skipped exactly when subtracting its unallocated resources leaves
`required` unchanged; otherwise the recovered resources are added to
`totalRecovered` and subtracted from `required`, the offer's resources are
recovered to the allocator with the default 5-second refuse filter, the
offer is removed (rescinded), and the loop stops as soon as
`totalRecovered.apply(operation)` succeeds. -/
def rescindOffers {R Op : Type} (ops : ResourcesOps R Op) (operation : Op) :
    List (Offer R) → R → R → RescindTrace R
  | [], totalRecovered, required => ⟨totalRecovered, required, [], []⟩
  | offer :: rest, totalRecovered, required =>
    if ops.beq required
        (ops.sub required (ops.unallocate offer.resources)) then
      rescindOffers ops operation rest totalRecovered required
    else if ops.applySucceeds
        (ops.add totalRecovered (ops.unallocate offer.resources)) operation then
      ⟨ops.add totalRecovered (ops.unallocate offer.resources),
       ops.sub required (ops.unallocate offer.resources),
       [⟨offer.frameworkId, offer.slaveId, offer.resources, 5⟩],
       [offer.id]⟩
    else
      ⟨(rescindOffers ops operation rest
          (ops.add totalRecovered (ops.unallocate offer.resources))
          (ops.sub required (ops.unallocate offer.resources))).totalRecovered,
       (rescindOffers ops operation rest
          (ops.add totalRecovered (ops.unallocate offer.resources))
          (ops.sub required (ops.unallocate offer.resources))).required,
       ⟨offer.frameworkId, offer.slaveId, offer.resources, 5⟩ ::
         (rescindOffers ops operation rest
            (ops.add totalRecovered (ops.unallocate offer.resources))
            (ops.sub required (ops.unallocate offer.resources))).recoverCalls,
       offer.id ::
         (rescindOffers ops operation rest
            (ops.add totalRecovered (ops.unallocate offer.resources))
            (ops.sub required (ops.unallocate offer.resources))).removedOffers⟩

/-- `master->slaves.registered.get(slaveId)`, read as the snapshot of the
agent's outstanding offers taken by the loop. -/
def lookupSlaveOffers {R : Type} (slaves : List (String × List (Offer R)))
    (slaveId : String) : Option (List (Offer R)) :=
  match slaves with
  | [] => none
  | (k, offers) :: t =>
    if k == slaveId then some offers else lookupSlaveOffers t slaveId

/-- `Master::Http::_operation` (http.cpp:4111-4163) up to the final
`master->apply` (whose Accepted/Conflict outcome is decided by the agent
apply, outside the sample): an unknown agent id answers 400 BadRequest
(`none` here); a registered agent runs the rescind loop starting from the
default-constructed empty `totalRecovered` (the `zero` parameter). -/
def _operation {R Op : Type} (ops : ResourcesOps R Op) (zero : R)
    (slaves : List (String × List (Offer R))) (slaveId : String)
    (required : R) (operation : Op) : Option (RescindTrace R) :=
  match lookupSlaveOffers slaves slaveId with
  | none => none
  | some offers => some (rescindOffers ops operation offers zero required)

/-- The tail of `Master::Http::_reserve` (http.cpp:2127-2139): after
authorization, RESERVE calls `_operation` with `required` equal to the
requested resources with one reservation popped
(`Resources(operation.reserve().resources()).popReservation()`).
`popReservation` lives in `src/common/resources.cpp`, outside the sample,
and is a parameter here, as is the construction of the RESERVE operation. -/
def _reserve {R Op : Type} (ops : ResourcesOps R Op) (zero : R)
    (popReservation : R → R) (mkReserveOp : R → Op)
    (slaves : List (String × List (Offer R))) (slaveId : String)
    (resources : R) : Option (RescindTrace R) :=
  _operation ops zero slaves slaveId (popReservation resources)
    (mkReserveOp resources)

/-- The loop state of the C1 claim, read as a fold with an early-exit
flag: `done` is set as soon as `totalRecovered.apply(operation)`
succeeds. -/
structure RescindState (R : Type) where
  done : Bool
  trace : RescindTrace R
deriving DecidableEq, Repr

/-- One offer of the claimed iteration: nothing once done; skip exactly
when `required == required - recovered`; otherwise recover to the
allocator with the default 5-second refuse filter, remove the offer, add
to `totalRecovered`, subtract from `required`, and test the apply. -/
def rescindStepSpec {R Op : Type} (ops : ResourcesOps R Op) (operation : Op)
    (st : RescindState R) (offer : Offer R) : RescindState R :=
  if st.done then st
  else if ops.beq st.trace.required
      (ops.sub st.trace.required (ops.unallocate offer.resources)) then st
  else
    ⟨ops.applySucceeds
       (ops.add st.trace.totalRecovered (ops.unallocate offer.resources))
       operation,
     ⟨ops.add st.trace.totalRecovered (ops.unallocate offer.resources),
      ops.sub st.trace.required (ops.unallocate offer.resources),
      st.trace.recoverCalls ++
        [⟨offer.frameworkId, offer.slaveId, offer.resources, 5⟩],
      st.trace.removedOffers ++ [offer.id]⟩⟩

/-- The claimed behaviour of the whole loop, as a fold of the step over
the offer snapshot. -/
def rescindOffersSpec {R Op : Type} (ops : ResourcesOps R Op)
    (operation : Op) (offers : List (Offer R))
    (totalRecovered required : R) : RescindTrace R :=
  (offers.foldl (rescindStepSpec ops operation)
    ⟨false, ⟨totalRecovered, required, [], []⟩⟩).trace

theorem rescindStepSpec_done {R Op : Type} (ops : ResourcesOps R Op)
    (operation : Op) (offers : List (Offer R)) (st : RescindState R)
    (h : st.done = true) :
    offers.foldl (rescindStepSpec ops operation) st = st := by
  induction offers with
  | nil => rfl
  | cons offer rest ih =>
    rw [List.foldl_cons]
    have hstep : rescindStepSpec ops operation st offer = st := by
      unfold rescindStepSpec
      rw [h]
      simp
    rw [hstep]
    exact ih

theorem rescindOffers_cons {R Op : Type} (ops : ResourcesOps R Op)
    (operation : Op) (offer : Offer R) (rest : List (Offer R))
    (totalRecovered required : R) :
    rescindOffers ops operation (offer :: rest) totalRecovered required =
      if ops.beq required
          (ops.sub required (ops.unallocate offer.resources)) then
        rescindOffers ops operation rest totalRecovered required
      else if ops.applySucceeds
          (ops.add totalRecovered (ops.unallocate offer.resources)) operation then
        ⟨ops.add totalRecovered (ops.unallocate offer.resources),
         ops.sub required (ops.unallocate offer.resources),
         [⟨offer.frameworkId, offer.slaveId, offer.resources, 5⟩],
         [offer.id]⟩
      else
        ⟨(rescindOffers ops operation rest
            (ops.add totalRecovered (ops.unallocate offer.resources))
            (ops.sub required (ops.unallocate offer.resources))).totalRecovered,
         (rescindOffers ops operation rest
            (ops.add totalRecovered (ops.unallocate offer.resources))
            (ops.sub required (ops.unallocate offer.resources))).required,
         ⟨offer.frameworkId, offer.slaveId, offer.resources, 5⟩ ::
           (rescindOffers ops operation rest
              (ops.add totalRecovered (ops.unallocate offer.resources))
              (ops.sub required (ops.unallocate offer.resources))).recoverCalls,
         offer.id ::
           (rescindOffers ops operation rest
              (ops.add totalRecovered (ops.unallocate offer.resources))
              (ops.sub required (ops.unallocate offer.resources))).removedOffers⟩ :=
  rfl

theorem rescindOffers_foldl {R Op : Type} (ops : ResourcesOps R Op)
    (operation : Op) (offers : List (Offer R)) :
    ∀ (totalRecovered required : R) (calls : List (RecoverCall R))
      (removed : List String),
      (offers.foldl (rescindStepSpec ops operation)
        ⟨false, ⟨totalRecovered, required, calls, removed⟩⟩).trace =
      ⟨(rescindOffers ops operation offers totalRecovered required).totalRecovered,
       (rescindOffers ops operation offers totalRecovered required).required,
       calls ++ (rescindOffers ops operation offers totalRecovered required).recoverCalls,
       removed ++ (rescindOffers ops operation offers totalRecovered required).removedOffers⟩ := by
  induction offers with
  | nil =>
    intro totalRecovered required calls removed
    simp [rescindOffers]
  | cons offer rest ih =>
    intro totalRecovered required calls removed
    rw [List.foldl_cons, rescindOffers_cons]
    by_cases hskip : ops.beq required
        (ops.sub required (ops.unallocate offer.resources)) = true
    · have hstep : rescindStepSpec ops operation
          ⟨false, ⟨totalRecovered, required, calls, removed⟩⟩ offer =
          ⟨false, ⟨totalRecovered, required, calls, removed⟩⟩ := by
        unfold rescindStepSpec
        simp [hskip]
      rw [hstep, if_pos hskip]
      exact ih totalRecovered required calls removed
    · have hskip' : (ops.beq required
          (ops.sub required (ops.unallocate offer.resources))) = false := by
        simpa using hskip
      have hstep : rescindStepSpec ops operation
          ⟨false, ⟨totalRecovered, required, calls, removed⟩⟩ offer =
          ⟨ops.applySucceeds
             (ops.add totalRecovered (ops.unallocate offer.resources))
             operation,
           ⟨ops.add totalRecovered (ops.unallocate offer.resources),
            ops.sub required (ops.unallocate offer.resources),
            calls ++ [⟨offer.frameworkId, offer.slaveId, offer.resources, 5⟩],
            removed ++ [offer.id]⟩⟩ := by
        unfold rescindStepSpec
        simp [hskip']
      rw [hstep, if_neg (by simp [hskip'])]
      by_cases happ : ops.applySucceeds
          (ops.add totalRecovered (ops.unallocate offer.resources))
          operation = true
      · rw [happ, rescindStepSpec_done ops operation rest _ rfl]
        simp
      · have happ' : ops.applySucceeds
            (ops.add totalRecovered (ops.unallocate offer.resources))
            operation = false := by simpa using happ
        rw [happ', ih]
        simp [List.append_assoc]

theorem rescindOffers_eq_spec {R Op : Type} (ops : ResourcesOps R Op)
    (operation : Op) (offers : List (Offer R))
    (totalRecovered required : R) :
    rescindOffers ops operation offers totalRecovered required =
      rescindOffersSpec ops operation offers totalRecovered required := by
  unfold rescindOffersSpec
  rw [rescindOffers_foldl]
  simp

/-- C1: for a mutating pipeline operation on a registered agent past
validation and authorization, the handler iterates the agent's
outstanding offers exactly as claimed: per offer it skips exactly when
`required == required - recovered` (the offer's unallocated resources),
otherwise recovers the offer's resources to the allocator with the
default 5-second refuse filter, removes the offer, adds to
`totalRecovered`, subtracts from `required`, and stops as soon as
`totalRecovered.apply(operation)` succeeds; and for RESERVE the initial
`required` is the requested resources with one reservation popped. -/
theorem C1_operation_rescind (R Op : Type) (ops : ResourcesOps R Op)
    (operation : Op) (slaves : List (String × List (Offer R)))
    (slaveId : String) (offers : List (Offer R)) (zero required : R)
    (popReservation : R → R) (mkReserveOp : R → Op) (resources : R) :
    (lookupSlaveOffers slaves slaveId = some offers →
      _operation ops zero slaves slaveId required operation =
        some (rescindOffersSpec ops operation offers zero required)) ∧
    _reserve ops zero popReservation mkReserveOp slaves slaveId resources =
      _operation ops zero slaves slaveId (popReservation resources)
        (mkReserveOp resources) := by
  constructor
  · intro hlook
    unfold _operation
    rw [hlook]
    dsimp only
    rw [rescindOffers_eq_spec]
  · rfl

end mesos

namespace mesos

theorem C1_operation_rescind_witness :
    lookupSlaveOffers
        [("s1", [(⟨"o1", "f1", "s1", 3⟩ : Offer Nat),
                 ⟨"o2", "f1", "s1", 0⟩, ⟨"o3", "f2", "s1", 4⟩])] "s1" =
      some [⟨"o1", "f1", "s1", 3⟩, ⟨"o2", "f1", "s1", 0⟩,
            ⟨"o3", "f2", "s1", 4⟩] ∧
    _operation
        (⟨Nat.add, Nat.sub, fun a b => a == b, id,
          fun r _ => Nat.ble 6 r⟩ : ResourcesOps Nat Unit) 0
        [("s1", [⟨"o1", "f1", "s1", 3⟩, ⟨"o2", "f1", "s1", 0⟩,
                 ⟨"o3", "f2", "s1", 4⟩])] "s1" 5 () =
      some (rescindOffersSpec
        (⟨Nat.add, Nat.sub, fun a b => a == b, id,
          fun r _ => Nat.ble 6 r⟩ : ResourcesOps Nat Unit) ()
        [⟨"o1", "f1", "s1", 3⟩, ⟨"o2", "f1", "s1", 0⟩,
         ⟨"o3", "f2", "s1", 4⟩] 0 5) ∧
    rescindOffersSpec
        (⟨Nat.add, Nat.sub, fun a b => a == b, id,
          fun r _ => Nat.ble 6 r⟩ : ResourcesOps Nat Unit) ()
        [⟨"o1", "f1", "s1", 3⟩, ⟨"o2", "f1", "s1", 0⟩,
         ⟨"o3", "f2", "s1", 4⟩] 0 5 =
      ⟨7, 0, [⟨"f1", "s1", 3, 5⟩, ⟨"f2", "s1", 4, 5⟩], ["o1", "o3"]⟩ :=
  ⟨by decide,
   (C1_operation_rescind Nat Unit
      ⟨Nat.add, Nat.sub, fun a b => a == b, id, fun r _ => Nat.ble 6 r⟩ ()
      [("s1", [⟨"o1", "f1", "s1", 3⟩, ⟨"o2", "f1", "s1", 0⟩,
               ⟨"o3", "f2", "s1", 4⟩])] "s1"
      [⟨"o1", "f1", "s1", 3⟩, ⟨"o2", "f1", "s1", 0⟩,
       ⟨"o3", "f2", "s1", 4⟩] 0 5 id (fun _ => ()) 0).1 (by decide),
   by decide⟩

end mesos
